import Mathlib

/-!
clHelper: work-size configuration and device selection

A shallow embedding of `clHelper.c` / `clHelper.h`.

Modelling conventions.

* `size_t` is 64 bits wide (LP64). Values are natural numbers; every operation
  of the source that can wrap is followed by an explicit `% SIZE_MOD`.
* `int` values (`dimensions`, result codes) are integers; they stay tiny.
* Pointers are options: `none` is `NULL`. Opaque runtime handles are numbers.
* A `malloc`ed block of `size_t` cells is a `WorkSizes`: one slot per allocated
  cell, `none` while the cell has never been written (its content is
  indeterminate), plus the list of stores that landed beyond the allocation.
  `malloc` is taken to succeed; `free` needs no model since the old block is
  simply replaced.
* `fprintf` diagnostics are not modelled.
-/

/-! ## Constants of `clHelper.h` -/

def CLH_OK : Int := 0
def CLH_GPU_NOT_FOUND : Int := 1
def CLH_NOT_COM_CONT : Int := 2
def CLH_NOT_COM_QUEUE : Int := 3
def CLH_NOT_COMP_PROG : Int := 4
def CLH_INV_WORK_ITEM : Int := 5
def CLH_INV_DIM : Int := 6
def CLH_INV_GRID : Int := 7
def CLH_KERN_FAIL : Int := 8
def CLH_FILE_ERROR : Int := 9

/-- Value of `CL_DEVICE_TYPE_GPU` in the OpenCL header `CL/cl.h` (`1 << 2`). -/
def CL_DEVICE_TYPE_GPU : Nat := 4

/-- Number of values of a `size_t`: arithmetic on `size_t` is modulo this. -/
def SIZE_MOD : Nat := 2 ^ 64

/-! ## `roundPower` -/

/-- Source function `roundPower`: decrement, five OR-shift steps, increment, all on `size_t`. -/
def roundPower (target : Nat) : Nat :=
  let target := (target + SIZE_MOD - 1) % SIZE_MOD
  let target := target ||| (target >>> 1)
  let target := target ||| (target >>> 2)
  let target := target ||| (target >>> 4)
  let target := target ||| (target >>> 8)
  let target := target ||| (target >>> 16)
  (target + 1) % SIZE_MOD

/-- The five OR-shift lines of `roundPower` on their own (proof helper; see `roundPower_eq_smear`). -/
def smear (t : Nat) : Nat :=
  let t := t ||| (t >>> 1)
  let t := t ||| (t >>> 2)
  let t := t ||| (t >>> 4)
  let t := t ||| (t >>> 8)
  t ||| (t >>> 16)

/-! ## Heap blocks holding work sizes -/

/-- A heap block of `size_t` cells. `cells` has one slot per allocated cell (`none`: never
written); `overrun` lists the stores `(index, value)` made past the end of the allocation. -/
structure WorkSizes where
  cells : List (Option Nat)
  overrun : List (Nat × Option Nat)
deriving DecidableEq, Repr

namespace WorkSizes

/-- Model of `malloc(sizeof(size_t) * n)`: `n` cells, none of them written yet. -/
def malloc (n : Nat) : WorkSizes :=
  { cells := List.replicate n none, overrun := [] }

/-- Model of `v[i] = val`: an in-bounds store fills the cell, any other store is recorded in `overrun`. -/
def store (v : WorkSizes) (i : Nat) (val : Option Nat) : WorkSizes :=
  if i < v.cells.length then { v with cells := v.cells.set i val }
  else { v with overrun := v.overrun ++ [(i, val)] }

/-- Model of reading `v[i]`: the stored value, or `none` (indeterminate) for a cell that was
never written or lies outside the allocation. -/
def load (v : WorkSizes) (i : Nat) : Option Nat :=
  (v.cells.get? i).join

end WorkSizes

/-! ## The context structure -/

/-- Source structure `struct cl_helper_context`, field for field. -/
structure cl_helper_context where
  -- kernel source buffer (`char *`), `none` when `NULL`
  buffer : Option (List Nat)
  device_id : Option Nat
  context : Option Nat
  command_queue : Option Nat
  program : Option Nat
  kernel : Option Nat
  event : Option Nat
  device_type : Nat
  max_group_size : Nat
  max_items_dimensions : Nat
  max_work_item_size : Fin 3 → Nat
  global_work_size : Nat
  localWorkSize : Option WorkSizes
  globalWorkSize : Option WorkSizes
  dimensions : Int
  -- bit pattern of the `double`; `0` is `+0.0`
  time_ms : Nat

/-- The context after `memset(chc, 0, sizeof(struct cl_helper_context))`. -/
def zeroContext : cl_helper_context :=
  { buffer := none, device_id := none, context := none, command_queue := none,
    program := none, kernel := none, event := none, device_type := 0,
    max_group_size := 0, max_items_dimensions := 0, max_work_item_size := fun _ => 0,
    global_work_size := 0, localWorkSize := none, globalWorkSize := none,
    dimensions := 0, time_ms := 0 }

/-- A zero-initialised context carrying a device capability snapshot, as the size-setting
functions see it after device selection. -/
def deviceContext (max_group_size : Nat) (m0 m1 m2 : Nat) : cl_helper_context :=
  { zeroContext with
    max_group_size := max_group_size
    max_work_item_size := fun i => if i = 0 then m0 else if i = 1 then m1 else m2 }

/-! ## Work-size configuration -/

/-- The block `dimensions = 1; if (y != 0) dimensions++; if (z != 0) dimensions++;` that
`clhSetBlockSize`, `clhSetGridSize` and `clhSetGlobalSize` each contain. -/
def countDimensions (y z : Nat) : Int :=
  let dimensions : Int := 1
  let dimensions := if y ≠ 0 then dimensions + 1 else dimensions
  let dimensions := if z ≠ 0 then dimensions + 1 else dimensions
  dimensions

/-- Source function `clhSetBlockSize`. Returns the result code and the context afterwards. -/
def clhSetBlockSize (chc : cl_helper_context) (x y z : Nat) : Int × cl_helper_context :=
  let xx := if x = 0 then 1 else x
  let yy := if y = 0 then 1 else y
  let zz := if z = 0 then 1 else z
  if ((xx * yy) % SIZE_MOD * zz) % SIZE_MOD > chc.max_group_size ∨ xx > chc.max_work_item_size 0 ∨
      yy > chc.max_work_item_size 1 ∨ zz > chc.max_work_item_size 2 then
    (-CLH_INV_WORK_ITEM, chc)
  else if x = 0 then
    (-CLH_INV_DIM, chc)
  else
    let dimensions := countDimensions y z
    let l := WorkSizes.malloc dimensions.toNat
    let l := l.store 0 (some (roundPower x))
    let l := if y ≠ 0 then l.store 1 (some (roundPower y)) else l
    let l := if z ≠ 0 then l.store 2 (some (roundPower z)) else l
    (CLH_OK, { chc with dimensions := dimensions, localWorkSize := some l })

/-- Source function `clhSetLocalSize`: an alias of `clhSetBlockSize`. -/
def clhSetLocalSize (chc : cl_helper_context) (x y z : Nat) : Int × cl_helper_context :=
  clhSetBlockSize chc x y z

/-- Reading `chc->localWorkSize[i]`. With a `NULL` vector the source would dereference a null
pointer; no state produced by these functions has `dimensions > 0` with a `NULL` local vector,
and the model yields an indeterminate value there. -/
def readLocal (chc : cl_helper_context) (i : Nat) : Option Nat :=
  match chc.localWorkSize with
  | none => none
  | some l => l.load i

/-- The expression `roundPower(chc->localWorkSize[i] * a)`: a `size_t` product, then rounding;
indeterminate when the local cell is. -/
def roundLocalTimes (chc : cl_helper_context) (i a : Nat) : Option Nat :=
  (readLocal chc i).map fun l => roundPower ((l * a) % SIZE_MOD)

/-- Source function `clhSetGridSize`. -/
def clhSetGridSize (chc : cl_helper_context) (x y z : Nat) : Int × cl_helper_context :=
  if chc.dimensions ≤ 0 then
    (-CLH_INV_GRID, chc)
  else if x = 0 then
    (-CLH_INV_DIM, chc)
  else
    let dimensions := countDimensions y z
    if chc.dimensions ≠ dimensions then
      (-CLH_INV_DIM, chc)
    else
      let g := WorkSizes.malloc dimensions.toNat
      let g := g.store 0 (roundLocalTimes chc 0 x)
      let g := if y ≠ 0 then g.store 1 (roundLocalTimes chc 1 y) else g
      let g := if z ≠ 0 then g.store 2 (roundLocalTimes chc 2 z) else g
      (CLH_OK, { chc with globalWorkSize := some g })

/-- Source function `clhSetGlobalSize`. -/
def clhSetGlobalSize (chc : cl_helper_context) (x y z : Nat) : Int × cl_helper_context :=
  if x = 0 then
    (-CLH_INV_DIM, chc)
  else
    let dimensions := countDimensions y z
    if chc.dimensions ≠ dimensions then
      (-CLH_INV_DIM, chc)
    else
      let g := WorkSizes.malloc dimensions.toNat
      let g := g.store 0 (some (roundPower x))
      let g := if y ≠ 0 then g.store 1 (some (roundPower y)) else g
      let g := if z ≠ 0 then g.store 2 (some (roundPower z)) else g
      (CLH_OK, { chc with globalWorkSize := some g })

/-! ### Proof helpers naming parts of the functions above -/

/-- The condition of the `if` under `Check bounds` in `clhSetBlockSize`. -/
def overLimit (chc : cl_helper_context) (x y z : Nat) : Prop :=
  (((if x = 0 then 1 else x) * (if y = 0 then 1 else y)) % SIZE_MOD *
      (if z = 0 then 1 else z)) % SIZE_MOD > chc.max_group_size ∨
    (if x = 0 then 1 else x) > chc.max_work_item_size 0 ∨
    (if y = 0 then 1 else y) > chc.max_work_item_size 1 ∨
    (if z = 0 then 1 else z) > chc.max_work_item_size 2

instance (chc : cl_helper_context) (x y z : Nat) : Decidable (overLimit chc x y z) := by
  unfold overLimit
  infer_instance

/-- The allocate-and-set block shared by the three setters: `malloc` of `dimensions` cells,
a store of `v0` at index 0, of `v1` at index 1 if `y` is not zero, of `v2` at index 2 if `z`
is not zero. -/
def fillSizes (dimensions : Int) (y z : Nat) (v0 v1 v2 : Option Nat) : WorkSizes :=
  let l := WorkSizes.malloc dimensions.toNat
  let l := l.store 0 v0
  let l := if y ≠ 0 then l.store 1 v1 else l
  let l := if z ≠ 0 then l.store 2 v2 else l
  l

/-! ## Device selection -/

/-- What the runtime reports for one device: its handle (`cl_device_id`, never `NULL`) and the
five `clGetDeviceInfo` answers that `clhStartContext` reads. -/
structure cl_device where
  handle : Nat
  device_type : Nat
  max_group_size : Nat
  max_items_dimensions : Nat
  max_work_item_size : Fin 3 → Nat
  global_work_size : Nat

/-- The external OpenCL runtime as `clhStartContext` uses it: the platforms in the order of
`clGetPlatformIDs`, each with its devices in the order of `clGetDeviceIDs`, and the outcomes of
`clCreateContext` (by device) and `clCreateCommandQueue` (by context and device), `none` being
a `NULL` result. -/
structure cl_runtime where
  platforms : List (List cl_device)
  clCreateContext : Nat → Option Nat
  clCreateCommandQueue : Nat → Nat → Option Nat

/-- The assignments made when `device_type == CL_DEVICE_TYPE_GPU` holds for device `d`. -/
def recordDevice (chc : cl_helper_context) (d : cl_device) : cl_helper_context :=
  { chc with
    device_id := some d.handle
    device_type := d.device_type
    max_group_size := d.max_group_size
    max_items_dimensions := d.max_items_dimensions
    max_work_item_size := fun i =>
      if i = 0 then d.max_work_item_size 0
      else if i = 1 then d.max_work_item_size 1
      else d.max_work_item_size 2
    global_work_size := d.global_work_size }

/-- The inner `for (j ...)` loop of `clhStartContext` over the devices of one platform. The
boolean is `true` when the loop left through `goto device_check`. -/
def scanDevices (debug_on : Bool) :
    cl_helper_context → List cl_device → cl_helper_context × Bool
  | chc, [] => (chc, false)
  | chc, d :: ds =>
    if d.device_type = CL_DEVICE_TYPE_GPU then
      let chc := recordDevice chc d
      if !debug_on then (chc, true) else scanDevices debug_on chc ds
    else scanDevices debug_on chc ds

/-- The outer `for (i ...)` loop of `clhStartContext` over the platforms. -/
def scanPlatforms (debug_on : Bool) :
    cl_helper_context → List (List cl_device) → cl_helper_context
  | chc, [] => chc
  | chc, p :: ps =>
    let r := scanDevices debug_on chc p
    if r.2 then r.1 else scanPlatforms debug_on r.1 ps

/-- Source function `clhStartContext`; `debug_on` is the global set by `CL_DEBUG`. The
context passed in is overwritten by the initial `memset`. -/
def clhStartContext (rt : cl_runtime) (debug_on : Bool) (_chc : cl_helper_context) :
    Int × cl_helper_context :=
  let chc := zeroContext
  let chc := scanPlatforms debug_on chc rt.platforms
  match chc.device_id with
  | none => (-CLH_GPU_NOT_FOUND, chc)
  | some dev =>
    let chc := { chc with context := rt.clCreateContext dev }
    match chc.context with
    | none => (-CLH_NOT_COM_CONT, chc)
    | some c =>
      let chc := { chc with command_queue := rt.clCreateCommandQueue c dev }
      match chc.command_queue with
      | none => (-CLH_NOT_COM_QUEUE, chc)
      | some _ => (CLH_OK, chc)

/-! ## Sequences of size-setting calls -/

/-- One call to a size-setting function, with its three arguments. -/
inductive SizeCall where
  | setBlockSize (x y z : Nat)
  | setLocalSize (x y z : Nat)
  | setGridSize (x y z : Nat)
  | setGlobalSize (x y z : Nat)
deriving DecidableEq, Repr

/-- Performing one call: result code and context afterwards. -/
def SizeCall.run (chc : cl_helper_context) : SizeCall → Int × cl_helper_context
  | .setBlockSize x y z => clhSetBlockSize chc x y z
  | .setLocalSize x y z => clhSetLocalSize chc x y z
  | .setGridSize x y z => clhSetGridSize chc x y z
  | .setGlobalSize x y z => clhSetGlobalSize chc x y z

/-- Performing a sequence of calls one after the other, whatever each returns. -/
def runCalls (chc : cl_helper_context) : List SizeCall → cl_helper_context
  | [] => chc
  | c :: cs => runCalls (c.run chc).2 cs

/-- Whether the call is `clhSetBlockSize` or its alias `clhSetLocalSize`. -/
def SizeCall.isLocal : SizeCall → Bool
  | .setBlockSize _ _ _ => true
  | .setLocalSize _ _ _ => true
  | .setGridSize _ _ _ => false
  | .setGlobalSize _ _ _ => false

/-- The dimension count of the arguments of a call. -/
def SizeCall.dims : SizeCall → Int
  | .setBlockSize _ y z => countDimensions y z
  | .setLocalSize _ y z => countDimensions y z
  | .setGridSize _ y z => countDimensions y z
  | .setGlobalSize _ y z => countDimensions y z

/-- Along the sequence, every block/local call that succeeds has dimension count `d`. -/
def keepsCount (d : Int) : cl_helper_context → List SizeCall → Prop
  | _, [] => True
  | chc, c :: cs =>
    (c.isLocal = true → (c.run chc).1 = CLH_OK → c.dims = d) ∧ keepsCount d (c.run chc).2 cs

instance keepsCount.decide (d : Int) :
    ∀ (chc : cl_helper_context) (cs : List SizeCall), Decidable (keepsCount d chc cs)
  | _, [] => isTrue trivial
  | chc, c :: cs =>
    have := keepsCount.decide d (c.run chc).2 cs
    inferInstanceAs (Decidable
      ((c.isLocal = true → (c.run chc).1 = CLH_OK → c.dims = d) ∧
        keepsCount d (c.run chc).2 cs))

/-- The arguments of a call use the axes contiguously (`y = 0` implies `z = 0`) and every
value the call hands to `roundPower` is at most `2^32`: the axes themselves for block, local
and global sizes, the products `localWorkSize[i] * axis` for a grid size. -/
def SizeCall.inRange (chc : cl_helper_context) : SizeCall → Prop
  | .setBlockSize x y z => (y = 0 → z = 0) ∧ x ≤ 2 ^ 32 ∧ y ≤ 2 ^ 32 ∧ z ≤ 2 ^ 32
  | .setLocalSize x y z => (y = 0 → z = 0) ∧ x ≤ 2 ^ 32 ∧ y ≤ 2 ^ 32 ∧ z ≤ 2 ^ 32
  | .setGlobalSize x y z => (y = 0 → z = 0) ∧ x ≤ 2 ^ 32 ∧ y ≤ 2 ^ 32 ∧ z ≤ 2 ^ 32
  | .setGridSize x y z =>
    (y = 0 → z = 0) ∧ (∀ l ∈ readLocal chc 0, l * x ≤ 2 ^ 32) ∧
      (∀ l ∈ readLocal chc 1, l * y ≤ 2 ^ 32) ∧
      (∀ l ∈ readLocal chc 2, l * z ≤ 2 ^ 32)

instance SizeCall.inRange.decide (chc : cl_helper_context) :
    ∀ c : SizeCall, Decidable (c.inRange chc)
  | .setBlockSize x y z =>
    inferInstanceAs (Decidable ((y = 0 → z = 0) ∧ x ≤ 2 ^ 32 ∧ y ≤ 2 ^ 32 ∧ z ≤ 2 ^ 32))
  | .setLocalSize x y z =>
    inferInstanceAs (Decidable ((y = 0 → z = 0) ∧ x ≤ 2 ^ 32 ∧ y ≤ 2 ^ 32 ∧ z ≤ 2 ^ 32))
  | .setGlobalSize x y z =>
    inferInstanceAs (Decidable ((y = 0 → z = 0) ∧ x ≤ 2 ^ 32 ∧ y ≤ 2 ^ 32 ∧ z ≤ 2 ^ 32))
  | .setGridSize x y z =>
    inferInstanceAs (Decidable
      ((y = 0 → z = 0) ∧ (∀ l ∈ readLocal chc 0, l * x ≤ 2 ^ 32) ∧
        (∀ l ∈ readLocal chc 1, l * y ≤ 2 ^ 32) ∧
        (∀ l ∈ readLocal chc 2, l * z ≤ 2 ^ 32)))

/-- Along the sequence, every call that succeeds is in range in the state it is made in. -/
def allInRange : cl_helper_context → List SizeCall → Prop
  | _, [] => True
  | chc, c :: cs => ((c.run chc).1 = CLH_OK → c.inRange chc) ∧ allInRange (c.run chc).2 cs

instance allInRange.decide :
    ∀ (chc : cl_helper_context) (cs : List SizeCall), Decidable (allInRange chc cs)
  | _, [] => isTrue trivial
  | chc, c :: cs =>
    have := allInRange.decide (c.run chc).2 cs
    inferInstanceAs (Decidable
      (((c.run chc).1 = CLH_OK → c.inRange chc) ∧ allInRange (c.run chc).2 cs))

/-- Nothing was stored out of bounds and every allocated cell holds a power of two. -/
def WorkSizes.Valid (v : WorkSizes) : Prop :=
  v.overrun = [] ∧ ∀ c ∈ v.cells, ∃ k : Nat, c = some (2 ^ k)

/-- The invariant as the specification words it: each vector, when not `NULL`, has exactly
`dimensions` cells, all written, each a power of two. -/
def SizesInvariant (chc : cl_helper_context) : Prop :=
  (∀ l, chc.localWorkSize = some l → (l.cells.length : Int) = chc.dimensions ∧ l.Valid) ∧
    (∀ g, chc.globalWorkSize = some g → (g.cells.length : Int) = chc.dimensions ∧ g.Valid)

/-- The allocation part of the invariant: the local vector, when not `NULL`, has exactly
`dimensions` cells; the global vector, when not `NULL`, has one to three cells. -/
def SizesAllocated (chc : cl_helper_context) : Prop :=
  (∀ l, chc.localWorkSize = some l → (l.cells.length : Int) = chc.dimensions) ∧
    (∀ g, chc.globalWorkSize = some g → 1 ≤ g.cells.length ∧ g.cells.length ≤ 3)

/-- The content part of the invariant: in each vector that is not `NULL` every allocated cell
is written and holds a power of two, and nothing was stored out of bounds. -/
def SizesValid (chc : cl_helper_context) : Prop :=
  (∀ l, chc.localWorkSize = some l → l.Valid) ∧ (∀ g, chc.globalWorkSize = some g → g.Valid)

/-- A `NULL` local vector goes with a dimension count that is not positive. -/
def SizesLinked (chc : cl_helper_context) : Prop :=
  chc.localWorkSize = none → chc.dimensions ≤ 0

/-- A runtime with one platform holding two GPUs, handles 1 and 2, with different limits. -/
def twoGpuRuntime : cl_runtime :=
  { platforms :=
      [[{ handle := 1, device_type := CL_DEVICE_TYPE_GPU, max_group_size := 256,
          max_items_dimensions := 3, max_work_item_size := fun _ => 256,
          global_work_size := 32 },
        { handle := 2, device_type := CL_DEVICE_TYPE_GPU, max_group_size := 1024,
          max_items_dimensions := 3, max_work_item_size := fun _ => 1024,
          global_work_size := 64 }]]
    clCreateContext := fun _ => some 10
    clCreateCommandQueue := fun _ _ => some 20 }

/-- The context of `matrix.c` after its call `clhSetBlockSize(&chc, 32, 32, 0)`, on a device
with group limit 1024 and axis limits `(1024, 1024, 64)`. -/
def matrixContext : cl_helper_context :=
  (clhSetBlockSize (deviceContext 1024 1024 1024 64) 32 32 0).2

/-! ## Releasing the context -/

/-- One call `clhReleaseContext` makes into the runtime or the allocator: the four OpenCL
release functions with the handle they are given, and `free` of each of the three owned
blocks. -/
inductive ReleaseCall where
  | clReleaseProgram (h : Nat)
  | clReleaseKernel (h : Nat)
  | clReleaseCommandQueue (h : Nat)
  | clReleaseContext (h : Nat)
  | freeGlobalWorkSize (v : WorkSizes)
  | freeLocalWorkSize (v : WorkSizes)
  | freeBuffer (b : List Nat)
deriving DecidableEq, Repr

/-- Source function `clhReleaseContext`. Returns the result code, the context afterwards and
the release and `free` calls made, in order; what those calls return is not looked at by the
source. -/
def clhReleaseContext (chc : cl_helper_context) :
    Int × cl_helper_context × List ReleaseCall :=
  let calls : List ReleaseCall := []
  let calls := match chc.program with
    | some h => calls ++ [.clReleaseProgram h]
    | none => calls
  let calls := match chc.kernel with
    | some h => calls ++ [.clReleaseKernel h]
    | none => calls
  let calls := match chc.command_queue with
    | some h => calls ++ [.clReleaseCommandQueue h]
    | none => calls
  let calls := match chc.context with
    | some h => calls ++ [.clReleaseContext h]
    | none => calls
  let calls := match chc.globalWorkSize with
    | some v => calls ++ [.freeGlobalWorkSize v]
    | none => calls
  let calls := match chc.localWorkSize with
    | some v => calls ++ [.freeLocalWorkSize v]
    | none => calls
  let calls := match chc.buffer with
    | some b => calls ++ [.freeBuffer b]
    | none => calls
  let chc := zeroContext
  (CLH_OK, chc, calls)

/-- The grid argument of axis `i`: `x`, `y`, `z` for `i = 0, 1, 2`. -/
def gridAxis (x y z : Nat) (i : Nat) : Nat :=
  if i = 0 then x else if i = 1 then y else z

/-- Reading `chc->globalWorkSize[i]`, indeterminate with a `NULL` vector. -/
def readGlobal (chc : cl_helper_context) (i : Nat) : Option Nat :=
  match chc.globalWorkSize with
  | none => none
  | some g => g.load i

/-! ## Theorems -/

/-- One smearing step doubles the window of source bits that feed each result bit. -/
theorem smear_step (m a c : Nat)
    (h : ∀ i, a.testBit i = true ↔ ∃ j, j < c ∧ m.testBit (i + j) = true) :
    ∀ i, (a ||| (a >>> c)).testBit i = true ↔ ∃ j, j < 2 * c ∧ m.testBit (i + j) = true := by
  intro i
  rw [Nat.testBit_or, Nat.testBit_shiftRight, Bool.or_eq_true, h i, h (c + i)]
  constructor
  · rintro (⟨j, hj, hb⟩ | ⟨j, hj, hb⟩)
    · exact ⟨j, by omega, hb⟩
    · refine ⟨c + j, by omega, ?_⟩
      have e : i + (c + j) = c + i + j := by omega
      rw [e]; exact hb
  · rintro ⟨j, hj, hb⟩
    by_cases hjc : j < c
    · exact Or.inl ⟨j, hjc, hb⟩
    · refine Or.inr ⟨j - c, by omega, ?_⟩
      have e : c + i + (j - c) = i + j := by omega
      rw [e]; exact hb

/-- The body of `roundPower` is decrement, `smear`, increment. -/
theorem roundPower_eq_smear (n : Nat) :
    roundPower n = (smear ((n + SIZE_MOD - 1) % SIZE_MOD) + 1) % SIZE_MOD := rfl

/-- Bit `i` of the smeared value is set exactly when one of the 32 source bits from `i` up is. -/
theorem smear_testBit (m i : Nat) :
    (smear m).testBit i = true ↔ ∃ j, j < 32 ∧ m.testBit (i + j) = true := by
  have h0 : ∀ i, m.testBit i = true ↔ ∃ j, j < 1 ∧ m.testBit (i + j) = true := by
    intro i
    constructor
    · intro h; exact ⟨0, by omega, by simpa using h⟩
    · rintro ⟨j, hj, hb⟩
      have : j = 0 := by omega
      subst this; simpa using hb
  have h1 := smear_step m _ 1 h0
  have h2 := smear_step m _ 2 h1
  have h4 := smear_step m _ 4 h2
  have h8 := smear_step m _ 8 h4
  exact smear_step m _ 16 h8 i

/-- Smearing a value of bit length `k ≤ 32` sets exactly the low `k` bits. -/
theorem smear_eq (m : Nat) (h : m < 2 ^ 32) : smear m = 2 ^ m.size - 1 := by
  have hk : m.size ≤ 32 := Nat.size_le.mpr h
  apply Nat.eq_of_testBit_eq
  intro i
  rw [Nat.testBit_two_pow_sub_one]
  by_cases hi : i < m.size
  · have hle : 2 ^ i ≤ m := Nat.lt_size.mp hi
    obtain ⟨b, hb, hbit⟩ := Nat.ge_two_pow_implies_high_bit_true hle
    have hb2 : b < m.size := by
      by_contra hc
      have hlt : m < 2 ^ b := Nat.size_le.mp (by omega)
      rw [Nat.testBit_lt_two_pow hlt] at hbit
      exact Bool.noConfusion hbit
    have : (smear m).testBit i = true :=
      (smear_testBit m i).mpr ⟨b - i, by omega, by
        have e : i + (b - i) = b := by omega
        rw [e]; exact hbit⟩
    simp [this, hi]
  · have : (smear m).testBit i = false := by
      apply Bool.eq_false_iff.mpr
      intro hc
      obtain ⟨j, _, hb⟩ := (smear_testBit m i).mp hc
      have hlt : m < 2 ^ (i + j) := Nat.size_le.mp (by omega)
      rw [Nat.testBit_lt_two_pow hlt] at hb
      exact Bool.noConfusion hb
    simp [this, hi]

/-- On `[1, 2^32]` the source function returns two to the bit length of `n - 1`. -/
theorem roundPower_eq (n : Nat) (h1 : 1 ≤ n) (h2 : n ≤ 2 ^ 32) :
    roundPower n = 2 ^ (n - 1).size := by
  have hm : (n + SIZE_MOD - 1) % SIZE_MOD = n - 1 := by
    have : n + SIZE_MOD - 1 = (n - 1) + SIZE_MOD := by omega
    rw [this, Nat.add_mod_right]
    apply Nat.mod_eq_of_lt
    simp only [SIZE_MOD]; omega
  rw [roundPower_eq_smear, hm, smear_eq (n - 1) (by omega)]
  have hk : (n - 1).size ≤ 32 := Nat.size_le.mpr (by omega)
  have hpos : 0 < 2 ^ (n - 1).size := Nat.pos_pow_of_pos _ (by decide)
  have hle : 2 ^ (n - 1).size ≤ 2 ^ 32 := Nat.pow_le_pow_right (by decide) hk
  have : 2 ^ (n - 1).size - 1 + 1 = 2 ^ (n - 1).size := by omega
  rw [this]
  apply Nat.mod_eq_of_lt
  simp only [SIZE_MOD]; omega

/-- On `[1, 2^32]` the result is a power of two, at least `n`, and below every other such power. -/
theorem roundPower_spec (n : Nat) (h1 : 1 ≤ n) (h2 : n ≤ 2 ^ 32) :
    (∃ k, k ≤ 32 ∧ roundPower n = 2 ^ k) ∧ n ≤ roundPower n ∧
      ∀ j, n ≤ 2 ^ j → roundPower n ≤ 2 ^ j := by
  rw [roundPower_eq n h1 h2]
  refine ⟨⟨_, Nat.size_le.mpr (by omega), rfl⟩, ?_, ?_⟩
  · have := Nat.lt_size_self (n - 1)
    omega
  · intro j hj
    apply Nat.pow_le_pow_right (by decide)
    exact Nat.size_le.mpr (by omega)

/-- C1: for every `n` with `1 ≤ n ≤ 2^31`, `roundPower n` is a power of two, is at least `n`,
and is at most every power of two that is at least `n`; and `roundPower 1 = 1`,
`roundPower 33 = 64`, `roundPower 1024 = 1024`. -/
theorem roundPower_smallest_power_of_two (n : Nat) (h1 : 1 ≤ n) (h2 : n ≤ 2 ^ 31) :
    ((∃ k, roundPower n = 2 ^ k) ∧ n ≤ roundPower n ∧ ∀ j, n ≤ 2 ^ j → roundPower n ≤ 2 ^ j) ∧
      roundPower 1 = 1 ∧ roundPower 33 = 64 ∧ roundPower 1024 = 1024 := by
  obtain ⟨⟨k, _, hk⟩, hge, hmin⟩ := roundPower_spec n h1 (by omega)
  exact ⟨⟨⟨k, hk⟩, hge, hmin⟩, by decide, by decide, by decide⟩

/-- Witness for C1 at `n = 33`. -/
theorem roundPower_smallest_power_of_two_witness :
    (1 ≤ 33 ∧ 33 ≤ 2 ^ 31) ∧
      (((∃ k, roundPower 33 = 2 ^ k) ∧ 33 ≤ roundPower 33 ∧
          ∀ j, 33 ≤ 2 ^ j → roundPower 33 ≤ 2 ^ j) ∧
        roundPower 1 = 1 ∧ roundPower 33 = 64 ∧ roundPower 1024 = 1024) :=
  ⟨by decide, roundPower_smallest_power_of_two 33 (by decide) (by decide)⟩

/-! ### Result codes and dimension counts -/

/-- The dimension count is 1, 2 or 3. -/
theorem countDimensions_range (y z : Nat) :
    1 ≤ countDimensions y z ∧ countDimensions y z ≤ 3 := by
  unfold countDimensions
  by_cases hy : y = 0 <;> by_cases hz : z = 0 <;> simp [hy, hz]

/-- Source function `clhSetBlockSize` written with `overLimit` and `fillSizes`. -/
theorem clhSetBlockSize_eq (chc : cl_helper_context) (x y z : Nat) :
    clhSetBlockSize chc x y z =
      if overLimit chc x y z then (-CLH_INV_WORK_ITEM, chc)
      else if x = 0 then (-CLH_INV_DIM, chc)
      else (CLH_OK, { chc with
        dimensions := countDimensions y z
        localWorkSize := some (fillSizes (countDimensions y z) y z
          (some (roundPower x)) (some (roundPower y)) (some (roundPower z))) }) := rfl

/-- Source function `clhSetGridSize` written with `fillSizes`. -/
theorem clhSetGridSize_eq (chc : cl_helper_context) (x y z : Nat) :
    clhSetGridSize chc x y z =
      if chc.dimensions ≤ 0 then (-CLH_INV_GRID, chc)
      else if x = 0 then (-CLH_INV_DIM, chc)
      else if chc.dimensions ≠ countDimensions y z then (-CLH_INV_DIM, chc)
      else (CLH_OK, { chc with
        globalWorkSize := some (fillSizes (countDimensions y z) y z
          (roundLocalTimes chc 0 x) (roundLocalTimes chc 1 y) (roundLocalTimes chc 2 z)) }) := rfl

/-- Source function `clhSetGlobalSize` written with `fillSizes`. -/
theorem clhSetGlobalSize_eq (chc : cl_helper_context) (x y z : Nat) :
    clhSetGlobalSize chc x y z =
      if x = 0 then (-CLH_INV_DIM, chc)
      else if chc.dimensions ≠ countDimensions y z then (-CLH_INV_DIM, chc)
      else (CLH_OK, { chc with
        globalWorkSize := some (fillSizes (countDimensions y z) y z
          (some (roundPower x)) (some (roundPower y)) (some (roundPower z))) }) := rfl

/-- The call `clhSetBlockSize` succeeds exactly when the bounds hold and `x` is not zero. -/
theorem clhSetBlockSize_ok_iff (chc : cl_helper_context) (x y z : Nat) :
    (clhSetBlockSize chc x y z).1 = CLH_OK ↔ ¬ overLimit chc x y z ∧ x ≠ 0 := by
  rw [clhSetBlockSize_eq]
  by_cases h1 : overLimit chc x y z
  · rw [if_pos h1]
    simp [h1, CLH_OK, CLH_INV_WORK_ITEM]
  · by_cases h2 : x = 0
    · rw [if_neg h1, if_pos h2]
      simp [h2, CLH_OK, CLH_INV_DIM]
    · rw [if_neg h1, if_neg h2]
      simp [h1, h2]

/-- A successful `clhSetBlockSize` stores the dimension count of its arguments. -/
theorem clhSetBlockSize_ok_dimensions (chc : cl_helper_context) (x y z : Nat)
    (h : (clhSetBlockSize chc x y z).1 = CLH_OK) :
    (clhSetBlockSize chc x y z).2.dimensions = countDimensions y z := by
  obtain ⟨h1, h2⟩ := (clhSetBlockSize_ok_iff chc x y z).mp h
  rw [clhSetBlockSize_eq, if_neg h1, if_neg h2]

/-- A failing `clhSetBlockSize` leaves the context as it was. -/
theorem clhSetBlockSize_fail_unchanged (chc : cl_helper_context) (x y z : Nat)
    (h : (clhSetBlockSize chc x y z).1 ≠ CLH_OK) :
    (clhSetBlockSize chc x y z).2 = chc := by
  rw [clhSetBlockSize_eq] at h ⊢
  by_cases h1 : overLimit chc x y z
  · rw [if_pos h1]
  · by_cases h2 : x = 0
    · rw [if_neg h1, if_pos h2]
    · rw [if_neg h1, if_neg h2] at h
      exact absurd rfl h

/-- The result code of `clhSetGridSize` once the stored dimension count is positive and `x` is not zero. -/
theorem clhSetGridSize_code (chc : cl_helper_context) (x y z : Nat)
    (hd : 0 < chc.dimensions) (hx : x ≠ 0) :
    (clhSetGridSize chc x y z).1 =
      if chc.dimensions = countDimensions y z then CLH_OK else -CLH_INV_DIM := by
  have hd2 : ¬ chc.dimensions ≤ 0 := by omega
  rw [clhSetGridSize_eq, if_neg hd2, if_neg hx]
  by_cases he : chc.dimensions = countDimensions y z
  · rw [if_neg (not_not.mpr he), if_pos he]
  · rw [if_pos he, if_neg he]

/-- C2: on the context left by a successful `clhSetBlockSize chc lx ly lz`, and for `gx ≠ 0`,
`clhSetGridSize gx gy gz` returns `CLH_OK` exactly when the dimension count of `(gx, gy, gz)`
equals that of `(lx, ly, lz)`, and returns `-CLH_INV_DIM` when the two counts differ. -/
theorem clhSetGridSize_after_block_ok_iff (chc : cl_helper_context) (lx ly lz gx gy gz : Nat)
    (hb : (clhSetBlockSize chc lx ly lz).1 = CLH_OK) (hgx : gx ≠ 0) :
    ((clhSetGridSize (clhSetBlockSize chc lx ly lz).2 gx gy gz).1 = CLH_OK ↔
        countDimensions gy gz = countDimensions ly lz) ∧
      (countDimensions gy gz ≠ countDimensions ly lz →
        (clhSetGridSize (clhSetBlockSize chc lx ly lz).2 gx gy gz).1 = -CLH_INV_DIM) := by
  have hdim := clhSetBlockSize_ok_dimensions chc lx ly lz hb
  have hpos : 0 < (clhSetBlockSize chc lx ly lz).2.dimensions := by
    rw [hdim]; have := (countDimensions_range ly lz).1; omega
  rw [clhSetGridSize_code _ gx gy gz hpos hgx, hdim]
  by_cases he : countDimensions ly lz = countDimensions gy gz
  · simp [he]
  · have he2 : ¬ countDimensions gy gz = countDimensions ly lz := fun h => he h.symm
    simp [he, he2, CLH_OK, CLH_INV_DIM]

/-- Witness for C2: block `(32, 32, 0)` then grid `(64, 64, 0)`, the call pair of `matrix.c`. -/
theorem clhSetGridSize_after_block_ok_iff_witness :
    ((clhSetBlockSize (deviceContext 1024 1024 1024 64) 32 32 0).1 = CLH_OK ∧ 64 ≠ 0) ∧
      (((clhSetGridSize (clhSetBlockSize (deviceContext 1024 1024 1024 64) 32 32 0).2
            64 64 0).1 = CLH_OK ↔ countDimensions 64 0 = countDimensions 32 0) ∧
        (countDimensions 64 0 ≠ countDimensions 32 0 →
          (clhSetGridSize (clhSetBlockSize (deviceContext 1024 1024 1024 64) 32 32 0).2
            64 64 0).1 = -CLH_INV_DIM)) :=
  ⟨⟨by decide, by decide⟩,
    clhSetGridSize_after_block_ok_iff (deviceContext 1024 1024 1024 64) 32 32 0 64 64 0
      (by decide) (by decide)⟩

/-- C3 (failing input): after `clhSetBlockSize 32 32 0` (two dimensions, local sizes 32 and 32)
the call `clhSetGridSize 4 0 4` succeeds, yet axis 1 of the global vector is never written and
the value for axis 2 is stored beyond the two allocated cells, so `globalWorkSize[1]` is not
`roundPower (localWorkSize[1] * 0)`. -/
theorem clhSetGridSize_skipped_axis :
    (clhSetBlockSize (deviceContext 1024 1024 1024 64) 32 32 0).1 = CLH_OK ∧
      (clhSetBlockSize (deviceContext 1024 1024 1024 64) 32 32 0).2.dimensions = 2 ∧
      readLocal (clhSetBlockSize (deviceContext 1024 1024 1024 64) 32 32 0).2 1 = some 32 ∧
      (clhSetGridSize (clhSetBlockSize (deviceContext 1024 1024 1024 64) 32 32 0).2 4 0 4).1
        = CLH_OK ∧
      (clhSetGridSize (clhSetBlockSize (deviceContext 1024 1024 1024 64) 32 32 0).2
          4 0 4).2.globalWorkSize
        = some { cells := [some 128, none], overrun := [(2, none)] } ∧
      ((clhSetGridSize (clhSetBlockSize (deviceContext 1024 1024 1024 64) 32 32 0).2
          4 0 4).2.globalWorkSize.bind fun g => g.load 1)
        ≠ some (roundPower (32 * 0 % SIZE_MOD)) := by
  decide

/-- C4 (counterexample): with group limit 1024 and axis limits `(2^32, 2^32, 1)` the call
`clhSetBlockSize (2^32) (2^32) 0` has mathematical product `2^64 > 1024`, yet the `size_t`
product wraps to 0 and the call returns `CLH_OK`. -/
theorem clhSetBlockSize_product_wraps :
    (deviceContext 1024 (2 ^ 32) (2 ^ 32) 1).max_group_size < 2 ^ 32 * 2 ^ 32 * 1 ∧
      (clhSetBlockSize (deviceContext 1024 (2 ^ 32) (2 ^ 32) 1) (2 ^ 32) (2 ^ 32) 0).1 = CLH_OK ∧
      (clhSetBlockSize (deviceContext 1024 (2 ^ 32) (2 ^ 32) 1) (2 ^ 32) (2 ^ 32) 0).1
        ≠ -CLH_INV_WORK_ITEM := by
  decide

/-- C4 (amended): `clhSetBlockSize` returns `-CLH_INV_WORK_ITEM` and leaves the context
unchanged when the product of the three axes (zero replaced by 1) exceeds `max_group_size`,
the product being reduced modulo `2^64` as `size_t` arithmetic does, or taken as a
mathematical integer when the product of the three `max_work_item_size` entries is below
`2^64`; likewise when an axis exceeds its `max_work_item_size` entry. -/
theorem clhSetBlockSize_over_limit (chc : cl_helper_context) (x y z : Nat)
    (h : chc.max_group_size <
          ((if x = 0 then 1 else x) * (if y = 0 then 1 else y) * (if z = 0 then 1 else z))
            % SIZE_MOD ∨
        (chc.max_group_size <
            (if x = 0 then 1 else x) * (if y = 0 then 1 else y) * (if z = 0 then 1 else z) ∧
          chc.max_work_item_size 0 * chc.max_work_item_size 1 * chc.max_work_item_size 2
            < SIZE_MOD) ∨
        chc.max_work_item_size 0 < x ∨ chc.max_work_item_size 1 < y ∨
        chc.max_work_item_size 2 < z) :
    clhSetBlockSize chc x y z = (-CLH_INV_WORK_ITEM, chc) := by
  rw [clhSetBlockSize_eq, if_pos]
  unfold overLimit
  rcases h with h | ⟨h, hm⟩ | h | h | h
  · left
    rw [Nat.mod_mul_mod]
    exact h
  · by_cases hax : (if x = 0 then 1 else x) > chc.max_work_item_size 0 ∨
        (if y = 0 then 1 else y) > chc.max_work_item_size 1 ∨
        (if z = 0 then 1 else z) > chc.max_work_item_size 2
    · exact Or.inr hax
    · left
      have hx : (if x = 0 then 1 else x) ≤ chc.max_work_item_size 0 := by omega
      have hy : (if y = 0 then 1 else y) ≤ chc.max_work_item_size 1 := by omega
      have hz : (if z = 0 then 1 else z) ≤ chc.max_work_item_size 2 := by omega
      have hle := Nat.mul_le_mul (Nat.mul_le_mul hx hy) hz
      rw [Nat.mod_mul_mod, Nat.mod_eq_of_lt (Nat.lt_of_le_of_lt hle hm)]
      exact h
  · right; left
    have : x ≠ 0 := by omega
    simpa [this] using h
  · right; right; left
    have : y ≠ 0 := by omega
    simpa [this] using h
  · right; right; right
    have : z ≠ 0 := by omega
    simpa [this] using h

/-- Witness for C4 (amended): `33 * 33 = 1089` work-items against a group limit of 1024, on
a device whose axis limits `(1024, 1024, 64)` have a product below `2^64`. -/
theorem clhSetBlockSize_over_limit_witness :
    ((deviceContext 1024 1024 1024 64).max_group_size <
          (if 33 = 0 then 1 else 33) * (if 33 = 0 then 1 else 33) * (if 0 = 0 then 1 else 0) ∧
        (deviceContext 1024 1024 1024 64).max_work_item_size 0 *
            (deviceContext 1024 1024 1024 64).max_work_item_size 1 *
            (deviceContext 1024 1024 1024 64).max_work_item_size 2 < SIZE_MOD) ∧
      clhSetBlockSize (deviceContext 1024 1024 1024 64) 33 33 0
        = (-CLH_INV_WORK_ITEM, deviceContext 1024 1024 1024 64) :=
  ⟨by decide,
    clhSetBlockSize_over_limit (deviceContext 1024 1024 1024 64) 33 33 0
      (Or.inr (Or.inl (by decide)))⟩

/-- C5 (counterexample): on the zero-initialised context `clhSetBlockSize 0 0 0` returns
`-CLH_INV_WORK_ITEM`, not `-CLH_INV_DIM`. -/
theorem zeroContext_rejects_work_item :
    (clhSetBlockSize zeroContext 0 0 0).1 = -CLH_INV_WORK_ITEM ∧
      (clhSetBlockSize zeroContext 0 0 0).1 ≠ -CLH_INV_DIM := by
  decide

/-- C5 (amended): `clhSetBlockSize 0 0 0` never changes the context; it returns `-CLH_INV_DIM`
exactly when `max_group_size` and the three `max_work_item_size` entries are all at least 1,
and `-CLH_INV_WORK_ITEM` otherwise. -/
theorem clhSetBlockSize_zero (chc : cl_helper_context) :
    clhSetBlockSize chc 0 0 0 =
      (if 1 ≤ chc.max_group_size ∧ 1 ≤ chc.max_work_item_size 0 ∧
          1 ≤ chc.max_work_item_size 1 ∧ 1 ≤ chc.max_work_item_size 2
        then -CLH_INV_DIM else -CLH_INV_WORK_ITEM, chc) := by
  rw [clhSetBlockSize_eq]
  unfold overLimit
  simp only [if_true]
  have e : (1 * 1 % SIZE_MOD * 1 % SIZE_MOD) = 1 := by decide
  rw [e]
  by_cases h : 1 ≤ chc.max_group_size ∧ 1 ≤ chc.max_work_item_size 0 ∧
      1 ≤ chc.max_work_item_size 1 ∧ 1 ≤ chc.max_work_item_size 2
  · have h1 : ¬ (1 > chc.max_group_size ∨ 1 > chc.max_work_item_size 0 ∨
        1 > chc.max_work_item_size 1 ∨ 1 > chc.max_work_item_size 2) := by omega
    rw [if_neg h1, if_pos h]
  · have h1 : (1 > chc.max_group_size ∨ 1 > chc.max_work_item_size 0 ∨
        1 > chc.max_work_item_size 1 ∨ 1 > chc.max_work_item_size 2) := by omega
    rw [if_pos h1, if_neg h]

/-- C6: on a context whose dimension count is not positive (no block size set yet),
`clhSetGridSize` returns `-CLH_INV_GRID` and the context it leaves is the one it was given. -/
theorem clhSetGridSize_before_block (chc : cl_helper_context) (x y z : Nat)
    (h : chc.dimensions ≤ 0) :
    clhSetGridSize chc x y z = (-CLH_INV_GRID, chc) := by
  unfold clhSetGridSize
  rw [if_pos h]

/-- Witness for C6: the zero-initialised context with a device snapshot, grid `(4, 4, 0)`. -/
theorem clhSetGridSize_before_block_witness :
    (deviceContext 1024 1024 1024 64).dimensions ≤ 0 ∧
      clhSetGridSize (deviceContext 1024 1024 1024 64) 4 4 0
        = (-CLH_INV_GRID, deviceContext 1024 1024 1024 64) :=
  ⟨by decide, clhSetGridSize_before_block (deviceContext 1024 1024 1024 64) 4 4 0 (by decide)⟩

/-! ### The work-size vectors over sequences of calls -/

/-- The dimension count by cases on which of `y`, `z` is zero. -/
theorem countDimensions_eq (y z : Nat) :
    countDimensions y z =
      if y = 0 then (if z = 0 then 1 else 2) else (if z = 0 then 2 else 3) := by
  unfold countDimensions
  by_cases hy : y = 0 <;> by_cases hz : z = 0 <;> simp [hy, hz]

/-- A store never changes the number of allocated cells. -/
theorem WorkSizes.store_length (v : WorkSizes) (i : Nat) (val : Option Nat) :
    (v.store i val).cells.length = v.cells.length := by
  unfold WorkSizes.store
  split_ifs <;> simp

/-- The block built by a setter has as many cells as the dimension count it was given. -/
theorem fillSizes_length (d : Int) (y z : Nat) (v0 v1 v2 : Option Nat) :
    (fillSizes d y z v0 v1 v2).cells.length = d.toNat := by
  unfold fillSizes
  by_cases hy : y = 0 <;> by_cases hz : z = 0 <;>
    simp [hy, hz, WorkSizes.store_length, WorkSizes.malloc]

/-- With contiguous axes the block built by a setter holds exactly the values of the used
axes and nothing is stored out of bounds. -/
theorem fillSizes_contiguous (y z : Nat) (hc : y = 0 → z = 0) (v0 v1 v2 : Option Nat) :
    fillSizes (countDimensions y z) y z v0 v1 v2 =
      { cells := if y = 0 then [v0] else if z = 0 then [v0, v1] else [v0, v1, v2],
        overrun := [] } := by
  by_cases hy : y = 0
  · have hz := hc hy
    subst hy; subst hz
    rfl
  · by_cases hz : z = 0
    · subst hz
      simp [fillSizes, countDimensions_eq, hy, WorkSizes.malloc, WorkSizes.store,
        List.replicate]
    · simp [fillSizes, countDimensions_eq, hy, hz, WorkSizes.malloc, WorkSizes.store,
        List.replicate]

/-- On `[1, 2^32]` the source function returns a power of two. -/
theorem roundPower_pow2 (n : Nat) (h1 : 1 ≤ n) (h2 : n ≤ 2 ^ 32) :
    ∃ k : Nat, roundPower n = 2 ^ k :=
  ⟨_, roundPower_eq n h1 h2⟩

/-- With contiguous axes and a power of two for every used axis, the block built by a setter
is valid. -/
theorem fillSizes_valid (y z : Nat) (hc : y = 0 → z = 0) (v0 v1 v2 : Option Nat)
    (h0 : ∃ k : Nat, v0 = some (2 ^ k)) (h1 : y ≠ 0 → ∃ k : Nat, v1 = some (2 ^ k))
    (h2 : z ≠ 0 → ∃ k : Nat, v2 = some (2 ^ k)) :
    (fillSizes (countDimensions y z) y z v0 v1 v2).Valid := by
  rw [fillSizes_contiguous y z hc]
  refine ⟨rfl, ?_⟩
  intro c hmem
  by_cases hy : y = 0
  · simp [hy] at hmem
    rw [hmem]; exact h0
  · by_cases hz : z = 0
    · simp [hy, hz] at hmem
      rcases hmem with rfl | rfl
      · exact h0
      · exact h1 hy
    · simp [hy, hz] at hmem
      rcases hmem with rfl | rfl | rfl
      · exact h0
      · exact h1 hy
      · exact h2 hz

/-- Reading an allocated cell of a valid block gives a power of two. -/
theorem WorkSizes.Valid.load (l : WorkSizes) (hv : l.Valid) (i : Nat)
    (hi : i < l.cells.length) : ∃ k : Nat, l.load i = some (2 ^ k) := by
  obtain ⟨k, hk⟩ := hv.2 (l.cells.get ⟨i, hi⟩) (List.get_mem _ _ _)
  refine ⟨k, ?_⟩
  unfold WorkSizes.load
  rw [List.get?_eq_get hi, hk]
  rfl

/-- The value `clhSetGridSize` stores for an allocated, valid local cell and a nonzero axis
whose product with the cell is at most `2^32` is a power of two. -/
theorem roundLocalTimes_pow2 (chc : cl_helper_context) (l : WorkSizes) (i a : Nat)
    (hl : chc.localWorkSize = some l) (hv : l.Valid) (hi : i < l.cells.length) (ha : a ≠ 0)
    (hr : ∀ v, readLocal chc i = some v → v * a ≤ 2 ^ 32) :
    ∃ k : Nat, roundLocalTimes chc i a = some (2 ^ k) := by
  obtain ⟨j, hj⟩ := hv.load l i hi
  have hread : readLocal chc i = some (2 ^ j) := by
    unfold readLocal
    rw [hl]
    exact hj
  have hle := hr _ hread
  have hpos : 1 ≤ 2 ^ j * a := by
    have : 0 < 2 ^ j := Nat.pos_pow_of_pos _ (by decide)
    exact Nat.mul_pos this (Nat.pos_of_ne_zero ha)
  have hmod : 2 ^ j * a % SIZE_MOD = 2 ^ j * a := by
    apply Nat.mod_eq_of_lt
    simp only [SIZE_MOD]; omega
  obtain ⟨k, hk⟩ := roundPower_pow2 (2 ^ j * a) hpos hle
  refine ⟨k, ?_⟩
  unfold roundLocalTimes
  rw [hread]
  simp only [Option.map_some', hmod, hk]

/-- With contiguous axes a successful `clhSetGridSize` stores, for each used axis `i`, the
rounded `size_t` product of `localWorkSize[i]` and the axis, and nothing else. -/
theorem clhSetGridSize_stores (chc : cl_helper_context) (x y z : Nat)
    (hok : (clhSetGridSize chc x y z).1 = CLH_OK) (hc : y = 0 → z = 0) :
    (clhSetGridSize chc x y z).2.globalWorkSize =
      some { cells :=
              if y = 0 then [roundLocalTimes chc 0 x]
              else if z = 0 then [roundLocalTimes chc 0 x, roundLocalTimes chc 1 y]
              else [roundLocalTimes chc 0 x, roundLocalTimes chc 1 y, roundLocalTimes chc 2 z],
             overrun := [] } := by
  rw [clhSetGridSize_eq] at hok ⊢
  by_cases hd : chc.dimensions ≤ 0
  · rw [if_pos hd] at hok
    simp [CLH_OK, CLH_INV_GRID] at hok
  · rw [if_neg hd] at hok ⊢
    by_cases hx : x = 0
    · rw [if_pos hx] at hok
      simp [CLH_OK, CLH_INV_DIM] at hok
    · rw [if_neg hx] at hok ⊢
      by_cases he : chc.dimensions = countDimensions y z
      · rw [if_neg (not_not.mpr he)]
        simp only []
        rw [fillSizes_contiguous y z hc]
      · rw [if_pos he] at hok
        simp [CLH_OK, CLH_INV_DIM] at hok

/-- What one call does: it fails and leaves the context alone, or it is a successful
block/local call, grid call or global call with the state each of them builds. -/
theorem SizeCall.run_cases (chc : cl_helper_context) (c : SizeCall) :
    ((c.run chc).1 ≠ CLH_OK ∧ (c.run chc).2 = chc) ∨
    ((c.run chc).1 = CLH_OK ∧ ∃ x y z, (c = .setBlockSize x y z ∨ c = .setLocalSize x y z) ∧
      x ≠ 0 ∧
      (c.run chc).2 = { chc with
        dimensions := countDimensions y z
        localWorkSize := some (fillSizes (countDimensions y z) y z
          (some (roundPower x)) (some (roundPower y)) (some (roundPower z))) }) ∨
    ((c.run chc).1 = CLH_OK ∧ ∃ x y z, c = .setGridSize x y z ∧ x ≠ 0 ∧
      0 < chc.dimensions ∧ chc.dimensions = countDimensions y z ∧
      (c.run chc).2 = { chc with
        globalWorkSize := some (fillSizes (countDimensions y z) y z
          (roundLocalTimes chc 0 x) (roundLocalTimes chc 1 y) (roundLocalTimes chc 2 z)) }) ∨
    ((c.run chc).1 = CLH_OK ∧ ∃ x y z, c = .setGlobalSize x y z ∧ x ≠ 0 ∧
      chc.dimensions = countDimensions y z ∧
      (c.run chc).2 = { chc with
        globalWorkSize := some (fillSizes (countDimensions y z) y z
          (some (roundPower x)) (some (roundPower y)) (some (roundPower z))) }) := by
  have hblock : ∀ x y z,
      ((clhSetBlockSize chc x y z).1 ≠ CLH_OK ∧ (clhSetBlockSize chc x y z).2 = chc) ∨
      ((clhSetBlockSize chc x y z).1 = CLH_OK ∧ x ≠ 0 ∧
        (clhSetBlockSize chc x y z).2 = { chc with
          dimensions := countDimensions y z
          localWorkSize := some (fillSizes (countDimensions y z) y z
            (some (roundPower x)) (some (roundPower y)) (some (roundPower z))) }) := by
    intro x y z
    by_cases h : (clhSetBlockSize chc x y z).1 = CLH_OK
    · right
      obtain ⟨h1, h2⟩ := (clhSetBlockSize_ok_iff chc x y z).mp h
      refine ⟨h, h2, ?_⟩
      rw [clhSetBlockSize_eq, if_neg h1, if_neg h2]
    · left
      exact ⟨h, clhSetBlockSize_fail_unchanged chc x y z h⟩
  cases c with
  | setBlockSize x y z =>
    rcases hblock x y z with h | ⟨h1, h2, h3⟩
    · exact Or.inl h
    · exact Or.inr (Or.inl ⟨h1, x, y, z, Or.inl rfl, h2, h3⟩)
  | setLocalSize x y z =>
    rcases hblock x y z with h | ⟨h1, h2, h3⟩
    · exact Or.inl h
    · exact Or.inr (Or.inl ⟨h1, x, y, z, Or.inr rfl, h2, h3⟩)
  | setGridSize x y z =>
    simp only [SizeCall.run]
    rw [clhSetGridSize_eq]
    by_cases hd : chc.dimensions ≤ 0
    · rw [if_pos hd]
      exact Or.inl ⟨by simp [CLH_OK, CLH_INV_GRID], rfl⟩
    · rw [if_neg hd]
      by_cases hx : x = 0
      · rw [if_pos hx]
        exact Or.inl ⟨by simp [CLH_OK, CLH_INV_DIM], rfl⟩
      · rw [if_neg hx]
        by_cases he : chc.dimensions = countDimensions y z
        · rw [if_neg (not_not.mpr he)]
          exact Or.inr (Or.inr (Or.inl ⟨rfl, x, y, z, rfl, hx, by omega, he, rfl⟩))
        · rw [if_pos he]
          exact Or.inl ⟨by simp [CLH_OK, CLH_INV_DIM], rfl⟩
  | setGlobalSize x y z =>
    simp only [SizeCall.run]
    rw [clhSetGlobalSize_eq]
    by_cases hx : x = 0
    · rw [if_pos hx]
      exact Or.inl ⟨by simp [CLH_OK, CLH_INV_DIM], rfl⟩
    · rw [if_neg hx]
      by_cases he : chc.dimensions = countDimensions y z
      · rw [if_neg (not_not.mpr he)]
        exact Or.inr (Or.inr (Or.inr ⟨rfl, x, y, z, rfl, hx, he, rfl⟩))
      · rw [if_pos he]
        exact Or.inl ⟨by simp [CLH_OK, CLH_INV_DIM], rfl⟩

/-- Every call keeps a `NULL` local vector paired with a non-positive dimension count. -/
theorem SizeCall.run_linked (chc : cl_helper_context) (c : SizeCall) (h : SizesLinked chc) :
    SizesLinked (c.run chc).2 := by
  rcases c.run_cases chc with ⟨_, he⟩ | ⟨_, x, y, z, _, _, he⟩ | ⟨_, x, y, z, _, _, _, _, he⟩ |
    ⟨_, x, y, z, _, _, _, he⟩
  · rw [he]; exact h
  · rw [he]; intro hn; simp at hn
  · rw [he]; exact h
  · rw [he]; exact h

/-- Every call, whatever its arguments, keeps the allocation part of the invariant. -/
theorem SizeCall.run_allocated (chc : cl_helper_context) (c : SizeCall)
    (h : SizesAllocated chc) : SizesAllocated (c.run chc).2 := by
  have hlen : ∀ (y z : Nat) (v0 v1 v2 : Option Nat),
      1 ≤ (fillSizes (countDimensions y z) y z v0 v1 v2).cells.length ∧
        (fillSizes (countDimensions y z) y z v0 v1 v2).cells.length ≤ 3 := by
    intro y z v0 v1 v2
    rw [fillSizes_length]
    have := countDimensions_range y z
    omega
  rcases c.run_cases chc with ⟨_, he⟩ | ⟨_, x, y, z, _, _, he⟩ | ⟨_, x, y, z, _, _, _, _, he⟩ |
    ⟨_, x, y, z, _, _, _, he⟩
  · rw [he]; exact h
  · rw [he]
    refine ⟨?_, h.2⟩
    intro l hl
    simp only [Option.some.injEq] at hl
    subst hl
    rw [fillSizes_length]
    have := countDimensions_range y z
    simp only []
    omega
  · rw [he]
    refine ⟨h.1, ?_⟩
    intro g hg
    simp only [Option.some.injEq] at hg
    subst hg
    exact hlen y z _ _ _
  · rw [he]
    refine ⟨h.1, ?_⟩
    intro g hg
    simp only [Option.some.injEq] at hg
    subst hg
    exact hlen y z _ _ _

/-- Right after a successful grid or global size call the global vector has exactly
`dimensions` cells. -/
theorem SizeCall.run_global_length (chc : cl_helper_context) (c : SizeCall)
    (hc : c.isLocal = false) (hok : (c.run chc).1 = CLH_OK) :
    ∃ g, (c.run chc).2.globalWorkSize = some g ∧
      (g.cells.length : Int) = (c.run chc).2.dimensions := by
  rcases c.run_cases chc with ⟨hne, _⟩ | ⟨_, x, y, z, hcs, _, _⟩ |
    ⟨_, x, y, z, _, _, _, hd, he⟩ | ⟨_, x, y, z, _, _, hd, he⟩
  · exact absurd hok hne
  · rcases hcs with rfl | rfl <;> simp [SizeCall.isLocal] at hc
  · rw [he]
    refine ⟨_, rfl, ?_⟩
    rw [fillSizes_length]
    have := countDimensions_range y z
    simp only []
    omega
  · rw [he]
    refine ⟨_, rfl, ?_⟩
    rw [fillSizes_length]
    have := countDimensions_range y z
    simp only []
    omega

/-- A call that is in range when it succeeds keeps the content part of the invariant. -/
theorem SizeCall.run_valid (chc : cl_helper_context) (c : SizeCall)
    (hlink : SizesLinked chc) (halloc : SizesAllocated chc) (hval : SizesValid chc)
    (hr : (c.run chc).1 = CLH_OK → c.inRange chc) : SizesValid (c.run chc).2 := by
  have hround : ∀ (x y z : Nat), x ≠ 0 → (y = 0 → z = 0) → x ≤ 2 ^ 32 → y ≤ 2 ^ 32 →
      z ≤ 2 ^ 32 →
      (fillSizes (countDimensions y z) y z
        (some (roundPower x)) (some (roundPower y)) (some (roundPower z))).Valid := by
    intro x y z hx hc hx2 hy2 hz2
    apply fillSizes_valid y z hc
    · obtain ⟨k, hk⟩ := roundPower_pow2 x (by omega) hx2
      exact ⟨k, by rw [hk]⟩
    · intro hy
      obtain ⟨k, hk⟩ := roundPower_pow2 y (by omega) hy2
      exact ⟨k, by rw [hk]⟩
    · intro hz
      obtain ⟨k, hk⟩ := roundPower_pow2 z (by omega) hz2
      exact ⟨k, by rw [hk]⟩
  rcases c.run_cases chc with ⟨_, he⟩ | ⟨hok, x, y, z, hcs, hx, he⟩ |
    ⟨hok, x, y, z, hcs, hx, hpos, hd, he⟩ | ⟨hok, x, y, z, hcs, hx, hd, he⟩
  · rw [he]; exact hval
  · have hin : (y = 0 → z = 0) ∧ x ≤ 2 ^ 32 ∧ y ≤ 2 ^ 32 ∧ z ≤ 2 ^ 32 := by
      rcases hcs with rfl | rfl <;> exact hr hok
    rw [he]
    refine ⟨?_, hval.2⟩
    intro l hl
    simp only [Option.some.injEq] at hl
    subst hl
    exact hround x y z hx hin.1 hin.2.1 hin.2.2.1 hin.2.2.2
  · subst hcs
    obtain ⟨hc, h0, h1, h2⟩ := hr hok
    cases hl : chc.localWorkSize with
    | none =>
      have := hlink hl
      omega
    | some l =>
      have hlen : (l.cells.length : Int) = countDimensions y z := by
        rw [← hd]; exact halloc.1 l hl
      have hlv : l.Valid := hval.1 l hl
      have hrange := countDimensions_range y z
      rw [he]
      refine ⟨hval.1, ?_⟩
      intro g hg
      simp only [Option.some.injEq] at hg
      subst hg
      apply fillSizes_valid y z hc
      · exact roundLocalTimes_pow2 chc l 0 x hl hlv (by omega) hx h0
      · intro hy
        have h2d : (2 : Int) ≤ countDimensions y z := by
          rw [countDimensions_eq]; simp only [hy, if_false]; split_ifs <;> omega
        exact roundLocalTimes_pow2 chc l 1 y hl hlv (by omega) hy h1
      · intro hz
        have hy : y ≠ 0 := fun hy0 => hz (hc hy0)
        have h3d : (3 : Int) = countDimensions y z := by
          rw [countDimensions_eq]; simp only [hy, hz, if_false]
        exact roundLocalTimes_pow2 chc l 2 z hl hlv (by omega) hz h2
  · subst hcs
    obtain ⟨hc, h0, h1, h2⟩ := hr hok
    rw [he]
    refine ⟨hval.1, ?_⟩
    intro g hg
    simp only [Option.some.injEq] at hg
    subst hg
    exact hround x y z hx hc h0 h1 h2

/-- Sequences of calls keep the link and the allocation part of the invariant. -/
theorem runCalls_allocated (cs : List SizeCall) :
    ∀ chc : cl_helper_context, SizesLinked chc → SizesAllocated chc →
      SizesLinked (runCalls chc cs) ∧ SizesAllocated (runCalls chc cs) := by
  induction cs with
  | nil => intro chc h1 h2; exact ⟨h1, h2⟩
  | cons c cs ih =>
    intro chc h1 h2
    exact ih _ (c.run_linked chc h1) (c.run_allocated chc h2)

/-- Sequences of in-range calls keep the content part of the invariant. -/
theorem runCalls_valid (cs : List SizeCall) :
    ∀ chc : cl_helper_context, SizesLinked chc → SizesAllocated chc → SizesValid chc →
      allInRange chc cs → SizesValid (runCalls chc cs) := by
  induction cs with
  | nil => intro chc _ _ h3 _; exact h3
  | cons c cs ih =>
    intro chc h1 h2 h3 h4
    exact ih _ (c.run_linked chc h1) (c.run_allocated chc h2)
      (c.run_valid chc h1 h2 h3 h4.1) h4.2

/-- C7 (counterexample): from the zero-initialised context with a device snapshot, the calls
`clhSetBlockSize 2 2 0`, `clhSetGridSize 1 1 0`, `clhSetBlockSize 2 0 0` all succeed with
in-range, contiguous arguments and end with `dimensions = 1` while the global vector still
has two cells, so the invariant as worded fails. -/
theorem stale_global_vector :
    (runCalls (deviceContext 1024 1024 1024 64)
        [.setBlockSize 2 2 0, .setGridSize 1 1 0, .setBlockSize 2 0 0]).dimensions = 1 ∧
      (runCalls (deviceContext 1024 1024 1024 64)
        [.setBlockSize 2 2 0, .setGridSize 1 1 0, .setBlockSize 2 0 0]).globalWorkSize
        = some { cells := [some 2, some 2], overrun := [] } ∧
      ¬ SizesInvariant (runCalls (deviceContext 1024 1024 1024 64)
        [.setBlockSize 2 2 0, .setGridSize 1 1 0, .setBlockSize 2 0 0]) := by
  refine ⟨by decide, by decide, ?_⟩
  intro h
  have h2 := (h.2 { cells := [some 2, some 2], overrun := [] } (by decide)).1
  revert h2
  decide

/-- C7 (amended): from a context with dimension count 0 and both vectors `NULL` (any device
limits), after any sequence `cs` of size-setting calls: the local vector, when not `NULL`, has
exactly `dimensions` cells and the global vector, when not `NULL`, has one to three cells;
right after a further successful grid/global call `c` the global vector has exactly
`dimensions` cells; and when every successful call of `cs` is in range (contiguous axes, every
value given to `roundPower` at most `2^32`), every cell of both vectors is written and holds a
power of two, with nothing stored out of bounds. -/
theorem sizes_invariant_amended (chc : cl_helper_context) (cs : List SizeCall) (c : SizeCall)
    (h0 : chc.dimensions = 0 ∧ chc.localWorkSize = none ∧ chc.globalWorkSize = none) :
    SizesAllocated (runCalls chc cs) ∧
      (c.isLocal = false → (c.run (runCalls chc cs)).1 = CLH_OK →
        ∃ g, (c.run (runCalls chc cs)).2.globalWorkSize = some g ∧
          (g.cells.length : Int) = (c.run (runCalls chc cs)).2.dimensions) ∧
      (allInRange chc cs → SizesValid (runCalls chc cs)) := by
  obtain ⟨hd, hl, hg⟩ := h0
  have hlink : SizesLinked chc := fun _ => by omega
  have halloc : SizesAllocated chc :=
    ⟨fun l h => by rw [hl] at h; exact Option.noConfusion h,
      fun g h => by rw [hg] at h; exact Option.noConfusion h⟩
  have hval : SizesValid chc :=
    ⟨fun l h => by rw [hl] at h; exact Option.noConfusion h,
      fun g h => by rw [hg] at h; exact Option.noConfusion h⟩
  refine ⟨(runCalls_allocated cs chc hlink halloc).2, ?_, ?_⟩
  · intro hc hok
    exact c.run_global_length _ hc hok
  · intro hr
    exact runCalls_valid cs chc hlink halloc hval hr

/-- Witness for C7 (amended): the calls of `matrix.c`, block `(32, 32, 0)` then grid
`(64, 64, 0)`, followed by `clhSetGlobalSize 8 8 0`. -/
theorem sizes_invariant_amended_witness :
    (((deviceContext 1024 1024 1024 64).dimensions = 0 ∧
          (deviceContext 1024 1024 1024 64).localWorkSize = none ∧
          (deviceContext 1024 1024 1024 64).globalWorkSize = none) ∧
        (SizeCall.setGlobalSize 8 8 0).isLocal = false ∧
        ((SizeCall.setGlobalSize 8 8 0).run (runCalls (deviceContext 1024 1024 1024 64)
          [.setBlockSize 32 32 0, .setGridSize 64 64 0])).1 = CLH_OK ∧
        allInRange (deviceContext 1024 1024 1024 64)
          [.setBlockSize 32 32 0, .setGridSize 64 64 0]) ∧
      (SizesAllocated (runCalls (deviceContext 1024 1024 1024 64)
          [.setBlockSize 32 32 0, .setGridSize 64 64 0]) ∧
        (∃ g, ((SizeCall.setGlobalSize 8 8 0).run (runCalls (deviceContext 1024 1024 1024 64)
              [.setBlockSize 32 32 0, .setGridSize 64 64 0])).2.globalWorkSize = some g ∧
            (g.cells.length : Int) =
              ((SizeCall.setGlobalSize 8 8 0).run (runCalls (deviceContext 1024 1024 1024 64)
                [.setBlockSize 32 32 0, .setGridSize 64 64 0])).2.dimensions) ∧
        SizesValid (runCalls (deviceContext 1024 1024 1024 64)
          [.setBlockSize 32 32 0, .setGridSize 64 64 0])) :=
  have hr : allInRange (deviceContext 1024 1024 1024 64)
      [.setBlockSize 32 32 0, .setGridSize 64 64 0] := by decide
  have h := sizes_invariant_amended (deviceContext 1024 1024 1024 64)
    [.setBlockSize 32 32 0, .setGridSize 64 64 0] (.setGlobalSize 8 8 0)
    ⟨by decide, by decide, by decide⟩
  ⟨⟨⟨by decide, by decide, by decide⟩, by decide, by decide, hr⟩,
    h.1, h.2.1 (by decide) (by decide), h.2.2 hr⟩

/-! ### Behaviour outside the range of the amended invariant -/

/-- Above `2^32` the five shifts no longer reach every bit: `roundPower (2^32 + 1)` is
`2^33 - 1`, which is not a power of two; and `roundPower 0` is 0. -/
theorem roundPower_out_of_range :
    roundPower (2 ^ 32 + 1) = 2 ^ 33 - 1 ∧ roundPower 0 = 0 := by
  decide

/-- With `y = 0` and `z ≠ 0` the block size call allocates two cells, never writes cell 1 and
stores the value for `z` at index 2, past the end. -/
theorem clhSetBlockSize_gap :
    (clhSetBlockSize (deviceContext 1024 1024 1024 64) 4 0 4).1 = CLH_OK ∧
      (clhSetBlockSize (deviceContext 1024 1024 1024 64) 4 0 4).2.dimensions = 2 ∧
      (clhSetBlockSize (deviceContext 1024 1024 1024 64) 4 0 4).2.localWorkSize
        = some { cells := [some 4, none], overrun := [(2, some 4)] } := by
  decide

/-- A grid axis whose `size_t` product with the local size wraps to 0 stores 0 as the global
size: block `(2, 0, 0)` then grid `(2^63, 0, 0)`. -/
theorem clhSetGridSize_wraps :
    (clhSetGridSize (clhSetBlockSize (deviceContext 1024 1024 1024 64) 2 0 0).2
        (2 ^ 63) 0 0).1 = CLH_OK ∧
      (clhSetGridSize (clhSetBlockSize (deviceContext 1024 1024 1024 64) 2 0 0).2
        (2 ^ 63) 0 0).2.globalWorkSize = some { cells := [some 0], overrun := [] } := by
  decide

/-! ### Dimension count over sequences of calls -/

/-- Grid and global size calls never write `dimensions`. -/
theorem run_grid_global_dimensions (chc : cl_helper_context) (c : SizeCall)
    (hc : c.isLocal = false) : (c.run chc).2.dimensions = chc.dimensions := by
  cases c with
  | setBlockSize x y z => simp [SizeCall.isLocal] at hc
  | setLocalSize x y z => simp [SizeCall.isLocal] at hc
  | setGridSize x y z =>
    simp only [SizeCall.run]
    rw [clhSetGridSize_eq]
    split_ifs <;> rfl
  | setGlobalSize x y z =>
    simp only [SizeCall.run]
    rw [clhSetGlobalSize_eq]
    split_ifs <;> rfl

/-- A grid or global size call whose dimension count differs from the stored positive count
returns `-CLH_INV_DIM`. -/
theorem run_grid_global_mismatch (chc : cl_helper_context) (c : SizeCall)
    (hc : c.isLocal = false) (hd : 1 ≤ chc.dimensions) (hne : c.dims ≠ chc.dimensions) :
    (c.run chc).1 = -CLH_INV_DIM := by
  have hd2 : ¬ chc.dimensions ≤ 0 := by omega
  cases c with
  | setBlockSize x y z => simp [SizeCall.isLocal] at hc
  | setLocalSize x y z => simp [SizeCall.isLocal] at hc
  | setGridSize x y z =>
    simp only [SizeCall.dims] at hne
    simp only [SizeCall.run]
    rw [clhSetGridSize_eq, if_neg hd2]
    by_cases hx : x = 0
    · rw [if_pos hx]
    · rw [if_neg hx, if_pos (fun h => hne h.symm)]
  | setGlobalSize x y z =>
    simp only [SizeCall.dims] at hne
    simp only [SizeCall.run]
    rw [clhSetGlobalSize_eq]
    by_cases hx : x = 0
    · rw [if_pos hx]
    · rw [if_neg hx, if_pos (fun h => hne h.symm)]

/-- A block or local size call stores its own dimension count when it succeeds and leaves the
stored count alone when it fails. -/
theorem run_local_dimensions (chc : cl_helper_context) (c : SizeCall)
    (hc : c.isLocal = true) :
    (c.run chc).2.dimensions = if (c.run chc).1 = CLH_OK then c.dims else chc.dimensions := by
  have key : ∀ x y z, (clhSetBlockSize chc x y z).2.dimensions =
      if (clhSetBlockSize chc x y z).1 = CLH_OK then countDimensions y z
      else chc.dimensions := by
    intro x y z
    by_cases h : (clhSetBlockSize chc x y z).1 = CLH_OK
    · rw [if_pos h, clhSetBlockSize_ok_dimensions chc x y z h]
    · rw [if_neg h, clhSetBlockSize_fail_unchanged chc x y z h]
  cases c with
  | setBlockSize x y z => exact key x y z
  | setLocalSize x y z => exact key x y z
  | setGridSize x y z => simp [SizeCall.isLocal] at hc
  | setGlobalSize x y z => simp [SizeCall.isLocal] at hc

/-- A sequence in which no successful block/local call has another count keeps the count. -/
theorem runCalls_keeps_dimensions (cs : List SizeCall) :
    ∀ chc : cl_helper_context, keepsCount chc.dimensions chc cs →
      (runCalls chc cs).dimensions = chc.dimensions := by
  induction cs with
  | nil => intro chc _; rfl
  | cons c cs ih =>
    intro chc hk
    obtain ⟨hc, hrest⟩ := hk
    have hstep : (c.run chc).2.dimensions = chc.dimensions := by
      cases hl : c.isLocal with
      | false => exact run_grid_global_dimensions chc c hl
      | true =>
        rw [run_local_dimensions chc c hl]
        by_cases hok : (c.run chc).1 = CLH_OK
        · rw [if_pos hok]; exact hc hl hok
        · rw [if_neg hok]
    simp only [runCalls]
    rw [← hstep] at hrest ⊢
    exact ih _ hrest

/-- C8 (counterexample): after `clhSetBlockSize 2 0 0` has set the dimension count to 1, the
later call `clhSetBlockSize 2 2 0` succeeds and leaves the dimension count at 2. -/
theorem clhSetBlockSize_changes_dimensions :
    (clhSetBlockSize (deviceContext 1024 1024 1024 64) 2 0 0).1 = CLH_OK ∧
      (clhSetBlockSize (deviceContext 1024 1024 1024 64) 2 0 0).2.dimensions = 1 ∧
      (clhSetBlockSize (clhSetBlockSize (deviceContext 1024 1024 1024 64) 2 0 0).2 2 2 0).1
        = CLH_OK ∧
      (clhSetBlockSize (clhSetBlockSize (deviceContext 1024 1024 1024 64) 2 0 0).2
        2 2 0).2.dimensions = 2 := by
  decide

/-- C8 (amended): start from a context whose dimension count is `d ≥ 1` and make any sequence
`pre` of size-setting calls in which every successful block/local call has dimension count
`d`. Then the count is still `d`, and for any next call `c`: a grid/global call leaves the
count at `d` and returns `-CLH_INV_DIM` when its own count differs from `d`; a block/local
call leaves the count at `d` when it fails and sets it to its own count when it succeeds. -/
theorem dimensions_after_calls (chc : cl_helper_context) (pre : List SizeCall) (c : SizeCall)
    (hd : 1 ≤ chc.dimensions) (hpre : keepsCount chc.dimensions chc pre) :
    (runCalls chc pre).dimensions = chc.dimensions ∧
      (c.isLocal = false →
        (c.run (runCalls chc pre)).2.dimensions = chc.dimensions ∧
          (c.dims ≠ chc.dimensions → (c.run (runCalls chc pre)).1 = -CLH_INV_DIM)) ∧
      (c.isLocal = true →
        (c.run (runCalls chc pre)).2.dimensions =
          if (c.run (runCalls chc pre)).1 = CLH_OK then c.dims else chc.dimensions) := by
  have hs := runCalls_keeps_dimensions pre chc hpre
  refine ⟨hs, ?_, ?_⟩
  · intro hc
    refine ⟨?_, ?_⟩
    · rw [run_grid_global_dimensions _ c hc, hs]
    · intro hne
      exact run_grid_global_mismatch _ c hc (by rw [hs]; exact hd) (by rw [hs]; exact hne)
  · intro hc
    rw [run_local_dimensions _ c hc, hs]

/-- Witness for C8 (amended): from the two-dimensional `matrixContext`, after a grid call, a
failing block call and a global call, the one-dimensional call `clhSetGridSize 4 0 0` leaves
the count at 2 and returns `-CLH_INV_DIM`. -/
theorem dimensions_after_calls_witness :
    (1 ≤ matrixContext.dimensions ∧
        keepsCount matrixContext.dimensions matrixContext
          [.setGridSize 64 64 0, .setBlockSize 0 0 0, .setGlobalSize 8 8 0] ∧
        (SizeCall.setGridSize 4 0 0).isLocal = false ∧
        (SizeCall.setGridSize 4 0 0).dims ≠ matrixContext.dimensions) ∧
      ((runCalls matrixContext
          [.setGridSize 64 64 0, .setBlockSize 0 0 0, .setGlobalSize 8 8 0]).dimensions
          = matrixContext.dimensions ∧
        ((SizeCall.setGridSize 4 0 0).run (runCalls matrixContext
            [.setGridSize 64 64 0, .setBlockSize 0 0 0, .setGlobalSize 8 8 0])).2.dimensions
          = matrixContext.dimensions ∧
        ((SizeCall.setGridSize 4 0 0).run (runCalls matrixContext
            [.setGridSize 64 64 0, .setBlockSize 0 0 0, .setGlobalSize 8 8 0])).1
          = -CLH_INV_DIM) :=
  have hk : keepsCount matrixContext.dimensions matrixContext
      [.setGridSize 64 64 0, .setBlockSize 0 0 0, .setGlobalSize 8 8 0] := by decide
  have h := dimensions_after_calls matrixContext
    [.setGridSize 64 64 0, .setBlockSize 0 0 0, .setGlobalSize 8 8 0] (.setGridSize 4 0 0)
    (by decide) hk
  ⟨⟨by decide, hk, by decide, by decide⟩,
    h.1, (h.2.1 (by decide)).1, (h.2.1 (by decide)).2 (by decide)⟩

/-! ### Rounding after the bounds test -/

/-- C10 (failing input): with group limit 1024 and axis limits `(1024, 1024, 64)` the call
`clhSetBlockSize 33 17 0` passes the bounds test (`33 * 17 = 561`), succeeds, and stores the
local sizes 64 and 32, whose product 2048 exceeds `max_group_size`. -/
theorem clhSetBlockSize_stores_over_group_limit :
    (clhSetBlockSize (deviceContext 1024 1024 1024 64) 33 17 0).1 = CLH_OK ∧
      (clhSetBlockSize (deviceContext 1024 1024 1024 64) 33 17 0).2.localWorkSize
        = some { cells := [some 64, some 32], overrun := [] } ∧
      (clhSetBlockSize (deviceContext 1024 1024 1024 64) 33 17 0).2.max_group_size = 1024 ∧
      ¬ (64 * 32 ≤ (clhSetBlockSize (deviceContext 1024 1024 1024 64) 33 17 0).2.max_group_size)
    := by
  decide

/-! ### Device selection -/

/-- Without the debug flag the inner loop stops at the first GPU of the platform. -/
theorem scanDevices_release (ds : List cl_device) :
    ∀ chc : cl_helper_context, scanDevices false chc ds =
      match ds.find? (fun d => decide (d.device_type = CL_DEVICE_TYPE_GPU)) with
      | some d => (recordDevice chc d, true)
      | none => (chc, false) := by
  induction ds with
  | nil => intro chc; rfl
  | cons d ds ih =>
    intro chc
    by_cases h : d.device_type = CL_DEVICE_TYPE_GPU
    · simp [scanDevices, List.find?, h]
    · simp [scanDevices, List.find?, h, ih]

/-- With the debug flag the inner loop records every GPU of the platform in turn. -/
theorem scanDevices_debug (ds : List cl_device) :
    ∀ chc : cl_helper_context, scanDevices true chc ds =
      ((ds.filter (fun d => decide (d.device_type = CL_DEVICE_TYPE_GPU))).foldl
        recordDevice chc, false) := by
  induction ds with
  | nil => intro chc; rfl
  | cons d ds ih =>
    intro chc
    by_cases h : d.device_type = CL_DEVICE_TYPE_GPU
    · simp [scanDevices, List.filter, h, ih]
    · simp [scanDevices, List.filter, h, ih]

/-- Without the debug flag the scan records the first GPU in platform-major order, if any. -/
theorem scanPlatforms_release (ps : List (List cl_device)) :
    ∀ chc : cl_helper_context, scanPlatforms false chc ps =
      match ps.flatten.find? (fun d => decide (d.device_type = CL_DEVICE_TYPE_GPU)) with
      | some d => recordDevice chc d
      | none => chc := by
  induction ps with
  | nil => intro chc; rfl
  | cons p ps ih =>
    intro chc
    simp only [scanPlatforms, List.flatten_cons, List.find?_append, scanDevices_release]
    cases hf : p.find? (fun d => decide (d.device_type = CL_DEVICE_TYPE_GPU)) with
    | some d => simp
    | none => simp [ih]

/-- With the debug flag the scan records every GPU in turn, so the last one stays. -/
theorem scanPlatforms_debug (ps : List (List cl_device)) :
    ∀ chc : cl_helper_context, scanPlatforms true chc ps =
      (ps.flatten.filter (fun d => decide (d.device_type = CL_DEVICE_TYPE_GPU))).foldl
        recordDevice chc := by
  induction ps with
  | nil => intro chc; rfl
  | cons p ps ih =>
    intro chc
    simp [scanPlatforms, scanDevices_debug, ih, List.foldl_append]

/-- Recording a list of devices leaves the handle of the last one, if the list is not empty. -/
theorem foldl_recordDevice_device_id (ds : List cl_device) :
    ∀ chc : cl_helper_context, (ds.foldl recordDevice chc).device_id =
      match ds.getLast? with
      | some d => some d.handle
      | none => chc.device_id := by
  induction ds with
  | nil => intro chc; rfl
  | cons d ds ih =>
    intro chc
    rw [List.foldl_cons, ih]
    cases ds with
    | nil => rfl
    | cons e es =>
      rw [List.getLast?_cons_cons]
      cases h : (e :: es).getLast? with
      | some x => rfl
      | none => exact absurd (List.getLast?_eq_none_iff.mp h) (List.cons_ne_nil e es)

/-- In either mode the scan from the zeroed context ends with a `NULL` device handle exactly
when no enumerated device has type GPU. -/
theorem scanPlatforms_device_id_none_iff (debug_on : Bool) (ps : List (List cl_device)) :
    (scanPlatforms debug_on zeroContext ps).device_id = none ↔
      ∀ d ∈ ps.flatten, d.device_type ≠ CL_DEVICE_TYPE_GPU := by
  cases debug_on with
  | false =>
    rw [scanPlatforms_release]
    cases hf : ps.flatten.find? (fun d => decide (d.device_type = CL_DEVICE_TYPE_GPU)) with
    | some d =>
      have hm := List.mem_of_find?_eq_some hf
      have hp := List.find?_some hf
      simp only [recordDevice]
      constructor
      · intro h; exact absurd h (by simp)
      · intro h; exact absurd (of_decide_eq_true hp) (h d hm)
    | none =>
      simp only [zeroContext, true_iff]
      intro d hd
      have := List.find?_eq_none.mp hf d hd
      simpa using this
  | true =>
    rw [scanPlatforms_debug, foldl_recordDevice_device_id]
    cases hl : (ps.flatten.filter
        (fun d => decide (d.device_type = CL_DEVICE_TYPE_GPU))).getLast? with
    | some d =>
      have hm := List.mem_of_getLast?_eq_some hl
      obtain ⟨hm1, hm2⟩ := List.mem_filter.mp hm
      constructor
      · intro h; exact absurd h (by simp)
      · intro h; exact absurd (of_decide_eq_true hm2) (h d hm1)
    | none =>
      simp only [zeroContext, true_iff]
      intro d hd hg
      have he := List.getLast?_eq_none_iff.mp hl
      have : d ∈ ps.flatten.filter (fun d => decide (d.device_type = CL_DEVICE_TYPE_GPU)) :=
        List.mem_filter.mpr ⟨hd, by simpa using hg⟩
      rw [he] at this
      exact absurd this (List.not_mem_nil d)

/-- In either mode `clhStartContext` returns `-CLH_GPU_NOT_FOUND` exactly when no enumerated
device has type GPU. -/
theorem clhStartContext_not_found_iff (rt : cl_runtime) (debug_on : Bool)
    (chc : cl_helper_context) :
    (clhStartContext rt debug_on chc).1 = -CLH_GPU_NOT_FOUND ↔
      ∀ d ∈ rt.platforms.flatten, d.device_type ≠ CL_DEVICE_TYPE_GPU := by
  rw [← scanPlatforms_device_id_none_iff debug_on]
  unfold clhStartContext
  simp only []
  cases hdev : (scanPlatforms debug_on zeroContext rt.platforms).device_id with
  | none => simp
  | some dev =>
    simp only []
    cases hc : rt.clCreateContext dev with
    | none => simp [CLH_GPU_NOT_FOUND, CLH_NOT_COM_CONT]
    | some c =>
      simp only []
      cases hq : rt.clCreateCommandQueue c dev with
      | none => simp [CLH_GPU_NOT_FOUND, CLH_NOT_COM_QUEUE]
      | some q => simp [CLH_GPU_NOT_FOUND, CLH_OK]

/-- The steps after `device_check` never touch the device handle the scan left. -/
theorem clhStartContext_device_id (rt : cl_runtime) (debug_on : Bool)
    (chc : cl_helper_context) :
    (clhStartContext rt debug_on chc).2.device_id =
      (scanPlatforms debug_on zeroContext rt.platforms).device_id := by
  unfold clhStartContext
  simp only []
  cases hdev : (scanPlatforms debug_on zeroContext rt.platforms).device_id with
  | none => simp [hdev]
  | some dev =>
    simp only []
    cases hc : rt.clCreateContext dev with
    | none => simp [hdev]
    | some c =>
      simp only []
      cases hq : rt.clCreateCommandQueue c dev with
      | none => simp [hdev]
      | some q => simp [hdev]

/-- Without the debug flag `clhStartContext` leaves the handle of the first GPU in
platform-major order in the context. -/
theorem clhStartContext_release_first_gpu (rt : cl_runtime) (chc : cl_helper_context) :
    (clhStartContext rt false chc).2.device_id =
      (rt.platforms.flatten.find? (fun d => decide (d.device_type = CL_DEVICE_TYPE_GPU))).map
        (fun d => d.handle) := by
  rw [clhStartContext_device_id, scanPlatforms_release]
  cases rt.platforms.flatten.find? (fun d => decide (d.device_type = CL_DEVICE_TYPE_GPU)) with
  | some d => rfl
  | none => rfl

/-- With the debug flag `clhStartContext` leaves the handle of the last GPU in platform-major
order in the context. -/
theorem clhStartContext_debug_last_gpu (rt : cl_runtime) (chc : cl_helper_context) :
    (clhStartContext rt true chc).2.device_id =
      ((rt.platforms.flatten.filter
        (fun d => decide (d.device_type = CL_DEVICE_TYPE_GPU))).getLast?).map
        (fun d => d.handle) := by
  rw [clhStartContext_device_id, scanPlatforms_debug, foldl_recordDevice_device_id]
  cases (rt.platforms.flatten.filter
      (fun d => decide (d.device_type = CL_DEVICE_TYPE_GPU))).getLast? with
  | some d => rfl
  | none => rfl

/-- C9 (failing input): with the debug flag set and one platform holding two GPUs (handles 1
and 2), `clhStartContext` succeeds and leaves the handle and limits of the second GPU in the
context, while without the flag it leaves those of the first. -/
theorem clhStartContext_debug_records_last_gpu :
    (clhStartContext twoGpuRuntime true zeroContext).1 = CLH_OK ∧
      (clhStartContext twoGpuRuntime true zeroContext).2.device_id = some 2 ∧
      (clhStartContext twoGpuRuntime true zeroContext).2.max_group_size = 1024 ∧
      (clhStartContext twoGpuRuntime true zeroContext).2.global_work_size = 64 ∧
      (clhStartContext twoGpuRuntime false zeroContext).1 = CLH_OK ∧
      (clhStartContext twoGpuRuntime false zeroContext).2.device_id = some 1 ∧
      (clhStartContext twoGpuRuntime false zeroContext).2.max_group_size = 256 := by
  decide

/-! ### Releasing the context -/

/-- C11: for every context state `clhReleaseContext` returns `CLH_OK` and leaves the zeroed
context, every field of which is zero or `NULL`; on the zero-initialised context it returns
`CLH_OK`, makes no release or `free` call and leaves the context unchanged; and applying it a
second time returns `CLH_OK` again with the same state as after the first. -/
theorem clhReleaseContext_zeroes (chc : cl_helper_context) :
    (clhReleaseContext chc).1 = CLH_OK ∧
      (clhReleaseContext chc).2.1 = zeroContext ∧
      ((clhReleaseContext chc).2.1.buffer = none ∧
        (clhReleaseContext chc).2.1.device_id = none ∧
        (clhReleaseContext chc).2.1.context = none ∧
        (clhReleaseContext chc).2.1.command_queue = none ∧
        (clhReleaseContext chc).2.1.program = none ∧
        (clhReleaseContext chc).2.1.kernel = none ∧
        (clhReleaseContext chc).2.1.event = none ∧
        (clhReleaseContext chc).2.1.device_type = 0 ∧
        (clhReleaseContext chc).2.1.max_group_size = 0 ∧
        (clhReleaseContext chc).2.1.max_items_dimensions = 0 ∧
        (∀ i, (clhReleaseContext chc).2.1.max_work_item_size i = 0) ∧
        (clhReleaseContext chc).2.1.global_work_size = 0 ∧
        (clhReleaseContext chc).2.1.localWorkSize = none ∧
        (clhReleaseContext chc).2.1.globalWorkSize = none ∧
        (clhReleaseContext chc).2.1.dimensions = 0 ∧
        (clhReleaseContext chc).2.1.time_ms = 0) ∧
      clhReleaseContext zeroContext = (CLH_OK, zeroContext, []) ∧
      (clhReleaseContext (clhReleaseContext chc).2.1).1 = CLH_OK ∧
      (clhReleaseContext (clhReleaseContext chc).2.1).2.1 = (clhReleaseContext chc).2.1 := by
  have h1 : (clhReleaseContext chc).2.1 = zeroContext := rfl
  refine ⟨rfl, h1, ?_, rfl, rfl, rfl⟩
  rw [h1]
  exact ⟨rfl, rfl, rfl, rfl, rfl, rfl, rfl, rfl, rfl, rfl, fun _ => rfl, rfl, rfl, rfl, rfl, rfl⟩

/-- The calls `clhReleaseContext` makes on the context of `matrix.c` once block and grid
size are set and a context and queue exist: the two handles are released, then the global and
the local vector are freed. -/
theorem clhReleaseContext_calls_example :
    (clhReleaseContext
        { (clhSetGridSize matrixContext 64 64 0).2 with
          context := some 10, command_queue := some 20 }).2.2
      = [.clReleaseCommandQueue 20, .clReleaseContext 10,
          .freeGlobalWorkSize { cells := [some 2048, some 2048], overrun := [] },
          .freeLocalWorkSize { cells := [some 32, some 32], overrun := [] }] := by
  decide

/-! ### Global sizes as multiples of local sizes -/

/-- Smearing only sets bits. -/
theorem smear_ge (m : Nat) : m ≤ smear m := by
  apply Nat.le_of_testBit
  intro i hi
  exact (smear_testBit m i).mpr ⟨0, by omega, by simpa using hi⟩

/-- Smearing a 64-bit value gives a 64-bit value. -/
theorem smear_lt (m : Nat) (h : m < 2 ^ 64) : smear m < 2 ^ 64 := by
  apply Nat.lt_pow_two_of_testBit
  intro i hi
  apply Bool.eq_false_iff.mpr
  intro hc
  obtain ⟨j, _, hb⟩ := (smear_testBit m i).mp hc
  have hge := Nat.testBit_implies_ge hb
  have hle : 2 ^ 64 ≤ 2 ^ (i + j) := Nat.pow_le_pow_right (by decide) (by omega)
  omega

/-- Whatever its argument, `roundPower` returns 0, a value above `2^32`, or a power of two
up to `2^32`. -/
theorem roundPower_trichotomy (x : Nat) :
    roundPower x = 0 ∨ 2 ^ 32 < roundPower x ∨ ∃ a : Nat, a ≤ 32 ∧ roundPower x = 2 ^ a := by
  rw [roundPower_eq_smear]
  have hm : (x + SIZE_MOD - 1) % SIZE_MOD < 2 ^ 64 := Nat.mod_lt _ (by decide)
  generalize (x + SIZE_MOD - 1) % SIZE_MOD = m at hm
  by_cases hs : m < 2 ^ 32
  · right; right
    refine ⟨m.size, Nat.size_le.mpr hs, ?_⟩
    rw [smear_eq m hs]
    have hk : m.size ≤ 32 := Nat.size_le.mpr hs
    have hpos : 0 < 2 ^ m.size := Nat.pos_pow_of_pos _ (by decide)
    have hle : 2 ^ m.size ≤ 2 ^ 32 := Nat.pow_le_pow_right (by decide) hk
    have e : 2 ^ m.size - 1 + 1 = 2 ^ m.size := by omega
    rw [e]
    apply Nat.mod_eq_of_lt
    simp only [SIZE_MOD]; omega
  · have h1 := smear_ge m
    have h2 := smear_lt m hm
    by_cases he : smear m + 1 = 2 ^ 64
    · left
      rw [he]
      decide
    · right; left
      have hlt : smear m + 1 < SIZE_MOD := by simp only [SIZE_MOD]; omega
      rw [Nat.mod_eq_of_lt hlt]
      omega

/-- Rounding the product of a power of two `2^a` with `g`, the product lying in `[1, 2^32]`,
gives `2^a` times a positive number. -/
theorem roundPower_mul_pow2 (a g : Nat) (h1 : 1 ≤ 2 ^ a * g) (h2 : 2 ^ a * g ≤ 2 ^ 32) :
    ∃ k : Nat, 1 ≤ k ∧ roundPower (2 ^ a * g % SIZE_MOD) = k * 2 ^ a := by
  have hmod : 2 ^ a * g % SIZE_MOD = 2 ^ a * g := by
    apply Nat.mod_eq_of_lt
    simp only [SIZE_MOD]; omega
  rw [hmod]
  obtain ⟨⟨b, _, hb⟩, hge, _⟩ := roundPower_spec (2 ^ a * g) h1 h2
  have hg : 1 ≤ g := by
    rcases Nat.eq_zero_or_pos g with h0 | h0
    · rw [h0] at h1; omega
    · exact h0
  have hab : 2 ^ a ≤ 2 ^ b := by
    rw [← hb]
    calc 2 ^ a = 2 ^ a * 1 := (Nat.mul_one _).symm
      _ ≤ 2 ^ a * g := Nat.mul_le_mul_left _ hg
      _ ≤ roundPower (2 ^ a * g) := hge
  have hle : a ≤ b := (Nat.pow_le_pow_iff_right (by decide)).mp hab
  refine ⟨2 ^ (b - a), Nat.pos_pow_of_pos _ (by decide), ?_⟩
  rw [hb, ← Nat.pow_add]
  congr 1
  omega

/-- The value stored for one grid axis: with a nonzero axis `g` and a product of the stored
local size and `g` of at most `2^32`, the rounded product is the stored local size times a
positive number. -/
theorem roundPower_axis_multiple (b g : Nat) (hg : g ≠ 0) (hp : roundPower b * g ≤ 2 ^ 32) :
    ∃ k : Nat, 1 ≤ k ∧ roundPower (roundPower b * g % SIZE_MOD) = k * roundPower b := by
  have hg1 : 1 ≤ g := Nat.pos_of_ne_zero hg
  rcases roundPower_trichotomy b with h0 | hbig | ⟨a, _, ha⟩
  · rw [h0, Nat.zero_mul]
    exact ⟨1, by omega, by decide⟩
  · have : roundPower b * 1 ≤ roundPower b * g := Nat.mul_le_mul_left _ hg1
    omega
  · rw [ha] at hp ⊢
    have hpos : 0 < 2 ^ a := Nat.pos_pow_of_pos _ (by decide)
    exact roundPower_mul_pow2 a g (Nat.mul_pos hpos hg1) hp

/-- With contiguous axes, reading cell `i` below the dimension count of the block built by a
setter gives the value stored for axis `i`. -/
theorem fillSizes_load (y z : Nat) (hc : y = 0 → z = 0) (v0 v1 v2 : Option Nat) (i : Fin 3)
    (hi : ((i : Nat) : Int) < countDimensions y z) :
    (fillSizes (countDimensions y z) y z v0 v1 v2).load i =
      if (i : Nat) = 0 then v0 else if (i : Nat) = 1 then v1 else v2 := by
  rw [fillSizes_contiguous y z hc]
  rw [countDimensions_eq] at hi
  obtain ⟨i, hi3⟩ := i
  by_cases hy : y = 0
  · have hz := hc hy
    simp only [hy, hz, if_true] at hi ⊢
    have h0 : i = 0 := by
      omega
    subst h0
    rfl
  · by_cases hz : z = 0
    · simp only [hy, hz, if_true, if_false] at hi ⊢
      have h01 : i = 0 ∨ i = 1 := by
          omega
      rcases h01 with rfl | rfl <;> rfl
    · simp only [hy, hz, if_false] at hi ⊢
      have h012 : i = 0 ∨ i = 1 ∨ i = 2 := by omega
      rcases h012 with rfl | rfl | rfl <;> rfl

/-- With contiguous axes and `x` nonzero, every axis below the dimension count is nonzero. -/
theorem gridAxis_ne_zero (x y z : Nat) (hx : x ≠ 0) (hc : y = 0 → z = 0) (i : Fin 3)
    (hi : ((i : Nat) : Int) < countDimensions y z) : gridAxis x y z i ≠ 0 := by
  rw [countDimensions_eq] at hi
  obtain ⟨i, hi3⟩ := i
  unfold gridAxis
  by_cases hy : y = 0
  · have hz := hc hy
    simp only [hy, hz, if_true] at hi
    have h0 : i = 0 := by
      omega
    subst h0
    simpa using hx
  · by_cases hz : z = 0
    · simp only [hy, hz, if_true, if_false] at hi
      have h01 : i = 0 ∨ i = 1 := by
          omega
      rcases h01 with rfl | rfl
      · simpa using hx
      · simpa using hy
    · have h012 : i = 0 ∨ i = 1 ∨ i = 2 := by omega
      rcases h012 with rfl | rfl | rfl
      · simpa using hx
      · simpa using hy
      · simpa using hz

/-- What a successful `clhSetGridSize` required and built. -/
theorem clhSetGridSize_ok (chc : cl_helper_context) (x y z : Nat)
    (hok : (clhSetGridSize chc x y z).1 = CLH_OK) :
    x ≠ 0 ∧ chc.dimensions = countDimensions y z ∧
      (clhSetGridSize chc x y z).2 = { chc with
        globalWorkSize := some (fillSizes (countDimensions y z) y z
          (roundLocalTimes chc 0 x) (roundLocalTimes chc 1 y) (roundLocalTimes chc 2 z)) } := by
  rw [clhSetGridSize_eq] at hok ⊢
  by_cases hd : chc.dimensions ≤ 0
  · rw [if_pos hd] at hok
    simp [CLH_OK, CLH_INV_GRID] at hok
  · rw [if_neg hd] at hok ⊢
    by_cases hx : x = 0
    · rw [if_pos hx] at hok
      simp [CLH_OK, CLH_INV_DIM] at hok
    · rw [if_neg hx] at hok ⊢
      by_cases he : chc.dimensions = countDimensions y z
      · rw [if_neg (not_not.mpr he)]
        exact ⟨hx, he, rfl⟩
      · rw [if_pos he] at hok
        simp [CLH_OK, CLH_INV_DIM] at hok

/-- What a successful `clhSetBlockSize` required and built. -/
theorem clhSetBlockSize_ok (chc : cl_helper_context) (x y z : Nat)
    (hok : (clhSetBlockSize chc x y z).1 = CLH_OK) :
    x ≠ 0 ∧ (clhSetBlockSize chc x y z).2 = { chc with
        dimensions := countDimensions y z
        localWorkSize := some (fillSizes (countDimensions y z) y z
          (some (roundPower x)) (some (roundPower y)) (some (roundPower z))) } := by
  obtain ⟨h1, h2⟩ := (clhSetBlockSize_ok_iff chc x y z).mp hok
  refine ⟨h2, ?_⟩
  rw [clhSetBlockSize_eq, if_neg h1, if_neg h2]

/-- When both calls succeed, both with their axes used contiguously, and for every axis `i`
below the dimension count the product `localWorkSize[i] * gridAxis[i]` is at most `2^32`, then
for every such axis both cells are written and the global cell is `k` times the local cell for
some `k ≥ 1`. -/
theorem contiguous_grid_multiple (chc : cl_helper_context) (lx ly lz gx gy gz : Nat)
    (hb : (clhSetBlockSize chc lx ly lz).1 = CLH_OK)
    (hg : (clhSetGridSize (clhSetBlockSize chc lx ly lz).2 gx gy gz).1 = CLH_OK)
    (hlc : ly = 0 → lz = 0) (hgc : gy = 0 → gz = 0)
    (hp : ∀ i : Fin 3, ((i : Nat) : Int) < (clhSetBlockSize chc lx ly lz).2.dimensions →
      ∀ l ∈ readLocal (clhSetBlockSize chc lx ly lz).2 i, l * gridAxis gx gy gz i ≤ 2 ^ 32) :
    ∀ i : Fin 3,
      ((i : Nat) : Int) <
          (clhSetGridSize (clhSetBlockSize chc lx ly lz).2 gx gy gz).2.dimensions →
        ∃ l g k : Nat,
          readLocal (clhSetGridSize (clhSetBlockSize chc lx ly lz).2 gx gy gz).2 i = some l ∧
          readGlobal (clhSetGridSize (clhSetBlockSize chc lx ly lz).2 gx gy gz).2 i = some g ∧
          1 ≤ k ∧ g = k * l := by
  obtain ⟨hlx, hb2⟩ := clhSetBlockSize_ok chc lx ly lz hb
  obtain ⟨hgx, hdim, hg2⟩ := clhSetGridSize_ok _ gx gy gz hg
  generalize clhSetBlockSize chc lx ly lz = r1 at hb2 hg hp hdim hg2 ⊢
  generalize clhSetGridSize r1.2 gx gy gz = r2 at hg2 ⊢
  have hd1 : r1.2.dimensions = countDimensions ly lz := by rw [hb2]
  have hd2 : r2.2.dimensions = countDimensions ly lz := by rw [hg2, ← hd1]
  intro i hi
  rw [hd2] at hi
  have hi' : ((i : Nat) : Int) < countDimensions gy gz := by rw [← hdim, hd1]; exact hi
  -- the local cell of axis `i`
  have hl1 : readLocal r1.2 i = some (roundPower (gridAxis lx ly lz i)) := by
    have : readLocal r1.2 i = (fillSizes (countDimensions ly lz) ly lz
        (some (roundPower lx)) (some (roundPower ly)) (some (roundPower lz))).load i := by
      rw [hb2]; rfl
    rw [this, fillSizes_load ly lz hlc _ _ _ i hi]
    unfold gridAxis
    split_ifs <;> rfl
  have hl2 : readLocal r2.2 i = readLocal r1.2 i := by rw [hg2]; rfl
  -- the global cell of axis `i`
  have hg1 : readGlobal r2.2 i = roundLocalTimes r1.2 i (gridAxis gx gy gz i) := by
    have : readGlobal r2.2 i = (fillSizes (countDimensions gy gz) gy gz
        (roundLocalTimes r1.2 0 gx) (roundLocalTimes r1.2 1 gy)
        (roundLocalTimes r1.2 2 gz)).load i := by
      rw [hg2]; rfl
    rw [this, fillSizes_load gy gz hgc _ _ _ i hi']
    unfold gridAxis
    obtain ⟨i, hi3⟩ := i
    have h012 : i = 0 ∨ i = 1 ∨ i = 2 := by omega
    rcases h012 with rfl | rfl | rfl <;> rfl
  have hne := gridAxis_ne_zero gx gy gz hgx hgc i hi'
  have hprod := hp i (by rw [hd1]; exact hi) _ hl1
  obtain ⟨k, hk1, hk⟩ := roundPower_axis_multiple _ _ hne hprod
  refine ⟨roundPower (gridAxis lx ly lz i), k * roundPower (gridAxis lx ly lz i), k, ?_, ?_,
    hk1, rfl⟩
  · rw [hl2, hl1]
  · rw [hg1]
    unfold roundLocalTimes
    rw [hl1]
    simp only [Option.map_some', hk]

/-- After a successful `clhSetBlockSize` with contiguous axes, the local cell of every axis
below the dimension count holds the rounded block axis. -/
theorem clhSetBlockSize_readLocal (chc : cl_helper_context) (x y z : Nat)
    (hok : (clhSetBlockSize chc x y z).1 = CLH_OK) (hc : y = 0 → z = 0) (i : Fin 3)
    (hi : ((i : Nat) : Int) < countDimensions y z) :
    readLocal (clhSetBlockSize chc x y z).2 i = some (roundPower (gridAxis x y z i)) := by
  obtain ⟨_, hb2⟩ := clhSetBlockSize_ok chc x y z hok
  have : readLocal (clhSetBlockSize chc x y z).2 i = (fillSizes (countDimensions y z) y z
      (some (roundPower x)) (some (roundPower y)) (some (roundPower z))).load i := by
    rw [hb2]; rfl
  rw [this, fillSizes_load y z hc _ _ _ i hi]
  unfold gridAxis
  split_ifs <;> rfl

/-- A successful `clhSetGridSize` leaves the local vector as it was. -/
theorem clhSetGridSize_readLocal (chc : cl_helper_context) (x y z : Nat)
    (hok : (clhSetGridSize chc x y z).1 = CLH_OK) (i : Nat) :
    readLocal (clhSetGridSize chc x y z).2 i = readLocal chc i := by
  obtain ⟨_, _, hg2⟩ := clhSetGridSize_ok chc x y z hok
  rw [hg2]; rfl

/-- After a contiguous block call, a grid call that succeeds and whose products
`localWorkSize[i] * gridAxis[i]` are all at least 1 below the dimension count uses its axes
contiguously too. -/
theorem grid_contiguous_of_products (chc : cl_helper_context) (lx ly lz gx gy gz : Nat)
    (hb : (clhSetBlockSize chc lx ly lz).1 = CLH_OK)
    (hg : (clhSetGridSize (clhSetBlockSize chc lx ly lz).2 gx gy gz).1 = CLH_OK)
    (hlc : ly = 0 → lz = 0)
    (hp : ∀ i : Fin 3, ((i : Nat) : Int) < (clhSetBlockSize chc lx ly lz).2.dimensions →
      ∀ l ∈ readLocal (clhSetBlockSize chc lx ly lz).2 i, 1 ≤ l * gridAxis gx gy gz i) :
    gy = 0 → gz = 0 := by
  intro hgy
  by_contra hgz
  have hd1 := clhSetBlockSize_ok_dimensions chc lx ly lz hb
  obtain ⟨_, hdim, _⟩ := clhSetGridSize_ok _ gx gy gz hg
  rw [hd1] at hdim
  have hcount : countDimensions ly lz = 2 := by
    rw [hdim, countDimensions_eq]; simp [hgy, hgz]
  have hi : (((1 : Fin 3) : Nat) : Int) < countDimensions ly lz := by
    rw [hcount]; decide
  have hl := clhSetBlockSize_readLocal chc lx ly lz hb hlc 1 hi
  have h1 := hp 1 (by rw [hd1]; exact hi) _ hl
  have hax : gridAxis gx gy gz ((1 : Fin 3) : Nat) = 0 := by
    simp [gridAxis, hgy]
  rw [hax] at h1
  omega

/-- C12 (counterexample): on a device reporting limits of `2^64 - 1`, block `(2^64 - 1, 0, 0)`
and then grid `(1, 0, 0)` both succeed, the block axes are contiguous and the one product
`localWorkSize[0] * 1` is `0 ≤ 2^32`; the stored local and global sizes are both 0, so the
global size is not positive. -/
theorem zero_global_size_counterexample :
    (clhSetBlockSize (deviceContext (2 ^ 64 - 1) (2 ^ 64 - 1) 1 1) (2 ^ 64 - 1) 0 0).1
        = CLH_OK ∧
      (clhSetGridSize (clhSetBlockSize (deviceContext (2 ^ 64 - 1) (2 ^ 64 - 1) 1 1)
        (2 ^ 64 - 1) 0 0).2 1 0 0).1 = CLH_OK ∧
      ((0 : Nat) = 0 → (0 : Nat) = 0) ∧
      (clhSetGridSize (clhSetBlockSize (deviceContext (2 ^ 64 - 1) (2 ^ 64 - 1) 1 1)
        (2 ^ 64 - 1) 0 0).2 1 0 0).2.dimensions = 1 ∧
      (∀ i : Fin 3,
        ((i : Nat) : Int) <
            (clhSetBlockSize (deviceContext (2 ^ 64 - 1) (2 ^ 64 - 1) 1 1)
              (2 ^ 64 - 1) 0 0).2.dimensions →
          ∀ l ∈ readLocal (clhSetBlockSize (deviceContext (2 ^ 64 - 1) (2 ^ 64 - 1) 1 1)
              (2 ^ 64 - 1) 0 0).2 i,
            l * gridAxis 1 0 0 i ≤ 2 ^ 32) ∧
      readLocal (clhSetGridSize (clhSetBlockSize (deviceContext (2 ^ 64 - 1) (2 ^ 64 - 1) 1 1)
        (2 ^ 64 - 1) 0 0).2 1 0 0).2 0 = some 0 ∧
      readGlobal (clhSetGridSize (clhSetBlockSize (deviceContext (2 ^ 64 - 1) (2 ^ 64 - 1) 1 1)
        (2 ^ 64 - 1) 0 0).2 1 0 0).2 0 = some 0 ∧
      ¬ ∃ g : Nat,
        readGlobal (clhSetGridSize
          (clhSetBlockSize (deviceContext (2 ^ 64 - 1) (2 ^ 64 - 1) 1 1)
            (2 ^ 64 - 1) 0 0).2 1 0 0).2 0 = some g ∧ 0 < g := by
  refine ⟨by decide, by decide, by decide, by decide, by decide, by decide, by decide, ?_⟩
  rintro ⟨g, hg, hpos⟩
  have e : readGlobal (clhSetGridSize
      (clhSetBlockSize (deviceContext (2 ^ 64 - 1) (2 ^ 64 - 1) 1 1)
        (2 ^ 64 - 1) 0 0).2 1 0 0).2 0 = some 0 := by decide
  rw [e] at hg
  cases hg
  omega

/-- The claim's stated conditions also hold at block `(32, 32, 0)`, grid `(4, 0, 4)`: both
calls succeed, the block axes are contiguous and the products of the two axes below the
dimension count are `128` and `0`; yet the global cell of axis 1 is never written. -/
theorem skipped_grid_axis_not_multiple :
    (clhSetBlockSize (deviceContext 1024 1024 1024 64) 32 32 0).1 = CLH_OK ∧
      (clhSetGridSize (clhSetBlockSize (deviceContext 1024 1024 1024 64) 32 32 0).2
        4 0 4).1 = CLH_OK ∧
      ((32 : Nat) = 0 → (0 : Nat) = 0) ∧
      (∀ i : Fin 3,
        ((i : Nat) : Int) <
            (clhSetBlockSize (deviceContext 1024 1024 1024 64) 32 32 0).2.dimensions →
          ∀ l ∈ readLocal (clhSetBlockSize (deviceContext 1024 1024 1024 64) 32 32 0).2 i,
            l * gridAxis 4 0 4 i ≤ 2 ^ 32) ∧
      readLocal (clhSetGridSize (clhSetBlockSize (deviceContext 1024 1024 1024 64) 32 32 0).2
        4 0 4).2 1 = some 32 ∧
      readGlobal (clhSetGridSize (clhSetBlockSize (deviceContext 1024 1024 1024 64) 32 32 0).2
        4 0 4).2 1 = none := by
  decide

/-- C12 (amended): when `clhSetBlockSize chc lx ly lz` and then `clhSetGridSize gx gy gz` both
succeed, the block axes are used contiguously (`ly = 0` implies `lz = 0`), and for every axis
`i` below the dimension count the product `localWorkSize[i] * gridAxis[i]` is at least 1 and
at most `2^32`, then for every such axis both cells are written, both sizes are at least 1,
and `globalWorkSize[i]` is `k * localWorkSize[i]` for some `k ≥ 1`. -/
theorem global_positive_multiple_of_local (chc : cl_helper_context)
    (lx ly lz gx gy gz : Nat)
    (hb : (clhSetBlockSize chc lx ly lz).1 = CLH_OK)
    (hg : (clhSetGridSize (clhSetBlockSize chc lx ly lz).2 gx gy gz).1 = CLH_OK)
    (hlc : ly = 0 → lz = 0)
    (hp : ∀ i : Fin 3, ((i : Nat) : Int) < (clhSetBlockSize chc lx ly lz).2.dimensions →
      ∀ l ∈ readLocal (clhSetBlockSize chc lx ly lz).2 i,
        1 ≤ l * gridAxis gx gy gz i ∧ l * gridAxis gx gy gz i ≤ 2 ^ 32) :
    ∀ i : Fin 3,
      ((i : Nat) : Int) <
          (clhSetGridSize (clhSetBlockSize chc lx ly lz).2 gx gy gz).2.dimensions →
        ∃ l g k : Nat,
          readLocal (clhSetGridSize (clhSetBlockSize chc lx ly lz).2 gx gy gz).2 i = some l ∧
          readGlobal (clhSetGridSize (clhSetBlockSize chc lx ly lz).2 gx gy gz).2 i = some g ∧
          1 ≤ l ∧ 1 ≤ g ∧ 1 ≤ k ∧ g = k * l := by
  have hgc := grid_contiguous_of_products chc lx ly lz gx gy gz hb hg hlc
    (fun i hi l hl => (hp i hi l hl).1)
  intro i hi
  obtain ⟨l, g, k, hl, hgl, hk, he⟩ := contiguous_grid_multiple chc lx ly lz gx gy gz hb hg
    hlc hgc (fun i hi l hl => (hp i hi l hl).2) i hi
  have hdim : (clhSetGridSize (clhSetBlockSize chc lx ly lz).2 gx gy gz).2.dimensions =
      (clhSetBlockSize chc lx ly lz).2.dimensions := by
    obtain ⟨_, _, hg2⟩ := clhSetGridSize_ok _ gx gy gz hg
    rw [hg2]
  have hl1 : readLocal (clhSetBlockSize chc lx ly lz).2 i = some l := by
    rw [← clhSetGridSize_readLocal _ gx gy gz hg i]; exact hl
  have hprod := (hp i (by rw [← hdim]; exact hi) l hl1).1
  have hl0 : 1 ≤ l := by
    rcases Nat.eq_zero_or_pos l with h0 | h0
    · rw [h0, Nat.zero_mul] at hprod; omega
    · exact h0
  have hg0 : 1 ≤ g := by
    rw [he]; exact Nat.mul_pos hk hl0
  exact ⟨l, g, k, hl, hgl, hl0, hg0, hk, he⟩

/-- Witness for C12 (amended): the calls of `matrix.c`, block `(32, 32, 0)` then grid
`(64, 64, 0)`, on a device with group limit 1024 and axis limits `(1024, 1024, 64)`. -/
theorem global_positive_multiple_of_local_witness :
    ((clhSetBlockSize (deviceContext 1024 1024 1024 64) 32 32 0).1 = CLH_OK ∧
        (clhSetGridSize (clhSetBlockSize (deviceContext 1024 1024 1024 64) 32 32 0).2
          64 64 0).1 = CLH_OK ∧
        ((32 : Nat) = 0 → (0 : Nat) = 0) ∧
        (∀ i : Fin 3,
          ((i : Nat) : Int) <
              (clhSetBlockSize (deviceContext 1024 1024 1024 64) 32 32 0).2.dimensions →
            ∀ l ∈ readLocal (clhSetBlockSize (deviceContext 1024 1024 1024 64) 32 32 0).2 i,
              1 ≤ l * gridAxis 64 64 0 i ∧ l * gridAxis 64 64 0 i ≤ 2 ^ 32)) ∧
      (∀ i : Fin 3,
        ((i : Nat) : Int) <
            (clhSetGridSize (clhSetBlockSize (deviceContext 1024 1024 1024 64) 32 32 0).2
              64 64 0).2.dimensions →
          ∃ l g k : Nat,
            readLocal (clhSetGridSize
              (clhSetBlockSize (deviceContext 1024 1024 1024 64) 32 32 0).2 64 64 0).2 i
              = some l ∧
            readGlobal (clhSetGridSize
              (clhSetBlockSize (deviceContext 1024 1024 1024 64) 32 32 0).2 64 64 0).2 i
              = some g ∧
            1 ≤ l ∧ 1 ≤ g ∧ 1 ≤ k ∧ g = k * l) :=
  ⟨⟨by decide, by decide, by decide, by decide⟩,
    global_positive_multiple_of_local (deviceContext 1024 1024 1024 64) 32 32 0 64 64 0
      (by decide) (by decide) (by decide) (by decide)⟩

/-- The sizes `matrix.c` ends with: local `(32, 32)`, global `(2048, 2048)`, each global size
64 times the local size. -/
theorem matrix_sizes_example :
    readLocal (clhSetGridSize matrixContext 64 64 0).2 0 = some 32 ∧
      readLocal (clhSetGridSize matrixContext 64 64 0).2 1 = some 32 ∧
      readGlobal (clhSetGridSize matrixContext 64 64 0).2 0 = some (64 * 32) ∧
      readGlobal (clhSetGridSize matrixContext 64 64 0).2 1 = some (64 * 32) := by
  decide

/-- The degenerate corner of the multiple: on a device reporting limits of `2^64 - 1`, block
`(2^64 - 1, 0, 0)` succeeds and stores the local size 0 (the rounding wraps), and grid
`(1, 0, 0)` then stores the global size 0, which is `1 * 0`. -/
theorem zero_local_size_example :
    (clhSetBlockSize (deviceContext (2 ^ 64 - 1) (2 ^ 64 - 1) 1 1) (2 ^ 64 - 1) 0 0).1
        = CLH_OK ∧
      readLocal (clhSetBlockSize (deviceContext (2 ^ 64 - 1) (2 ^ 64 - 1) 1 1)
        (2 ^ 64 - 1) 0 0).2 0 = some 0 ∧
      (clhSetGridSize (clhSetBlockSize (deviceContext (2 ^ 64 - 1) (2 ^ 64 - 1) 1 1)
        (2 ^ 64 - 1) 0 0).2 1 0 0).1 = CLH_OK ∧
      readGlobal (clhSetGridSize (clhSetBlockSize (deviceContext (2 ^ 64 - 1) (2 ^ 64 - 1) 1 1)
        (2 ^ 64 - 1) 0 0).2 1 0 0).2 0 = some 0 := by
  decide
